import Mathlib

/-
  Verification of the BlenderRayTracer rendering core.

  The JavaScript source is shallowly embedded in Lean 4:

  * Layer A (exact rationals, fully computable): the World container
    (`world.js`) and the recursive integrator `rayColor`
    (`ray-tracer.js`).  Primitive hit functions and material
    scatter/emit functions appear as explicit function fields, mirroring
    the dynamic dispatch of the source; the `t`-range upper bounds are
    `WithTop ℚ`, with `⊤` playing the role of JavaScript's `Infinity`
    (only order comparisons are ever performed on the bound, exactly as
    in the source).  Randomness (`Math.random()`, `randomInUnitSphere`)
    is passed in explicitly as a stream of draws.

  * Layer B (real numbers): the geometric primitives (`geometry.js`),
    the math kernel (`math.js`: `normalize`, `reflect`,
    `setFaceNormal`) and the Metal/Dielectric materials
    (`materials.js`), which use `Math.sqrt`/`Math.acos`/`Math.atan2`
    and are therefore modelled over `ℝ` with the corresponding real
    functions (`Real.sqrt`, `Real.arccos`, `Complex.arg`).  Definitions
    that mention those real functions are `noncomputable`; witnesses
    evaluate them by `simp`/`norm_num`.  Divisions follow Lean's
    `x / 0 = 0` convention; the separate Layer C captures the
    IEEE-754 special-value behaviour where it is the point of a claim.

  * Layer C (JavaScript number semantics): an extended-rational type
    `ERat` with `+Infinity`, `-Infinity` and `NaN` following the IEEE
    rules used by JavaScript (`0/0 = NaN`, `Math.min(NaN, x) = NaN`,
    every comparison with `NaN` false, `0 * NaN = NaN`, ...), over
    which the Box slab test is re-embedded exactly, to settle the
    safety claim about degenerate rays.
-/

set_option maxHeartbeats 1000000

namespace RT

/-! ### The vector / ray math kernel (`math.js`) -/

/-- Three-component vector, `class Vec3` from `math.js`.  The scalar type is a
parameter so that the same operations serve the exact-rational layer and
the real-number layer. -/
structure Vec3 (α : Type) where
  x : α
  y : α
  z : α
  deriving DecidableEq, Repr

variable {α : Type} [LinearOrderedField α]

/-- Mirrors `Vec3.add` from `math.js`. -/
def Vec3.add (a b : Vec3 α) : Vec3 α := ⟨a.x + b.x, a.y + b.y, a.z + b.z⟩

/-- Mirrors `Vec3.sub` from `math.js`. -/
def Vec3.sub (a b : Vec3 α) : Vec3 α := ⟨a.x - b.x, a.y - b.y, a.z - b.z⟩

/-- Mirrors `Vec3.mul` (scalar multiplication) from `math.js`. -/
def Vec3.mul (a : Vec3 α) (s : α) : Vec3 α := ⟨a.x * s, a.y * s, a.z * s⟩

/-- Mirrors `Vec3.div` (scalar division) from `math.js`. -/
def Vec3.div (a : Vec3 α) (s : α) : Vec3 α := ⟨a.x / s, a.y / s, a.z / s⟩

/-- Mirrors `Vec3.dot` from `math.js`. -/
def Vec3.dot (a b : Vec3 α) : α := a.x * b.x + a.y * b.y + a.z * b.z

/-- Mirrors `Vec3.cross` from `math.js`. -/
def Vec3.cross (a b : Vec3 α) : Vec3 α :=
  ⟨a.y * b.z - a.z * b.y, a.z * b.x - a.x * b.z, a.x * b.y - a.y * b.x⟩

/-- Mirrors `Vec3.reflect`: `this.sub(n.mul(2 * this.dot(n)))` from `math.js`. -/
def Vec3.reflect (v n : Vec3 α) : Vec3 α := v.sub (n.mul (2 * v.dot n))

/-- The zero vector `new Vec3()`. -/
def Vec3.zero : Vec3 α := ⟨0, 0, 0⟩

/-- The `Ray` class from `math.js`: an origin and a (not necessarily unit)
direction. -/
structure Ray (α : Type) where
  origin : Vec3 α
  direction : Vec3 α
  deriving DecidableEq, Repr

/-- Mirrors `Ray.at(t) = origin + direction·t` from `math.js`. -/
def Ray.at (r : Ray α) (t : α) : Vec3 α := r.origin.add (r.direction.mul t)

/-- The `HitRecord` class from `math.js`, minus the material reference: in this
embedding the material travels next to the record (`World.hit` returns the
pair) instead of inside it, because the scatter functions of a material
themselves consume hit records. -/
structure HitRecord (α : Type) where
  t : α
  point : Vec3 α
  normal : Vec3 α
  frontFace : Bool
  u : α
  v : α
  deriving DecidableEq, Repr

/-! ### Layer A: World and integrator over exact rationals -/

/-- One bundle of random draws, standing for the values produced by
`Vec3.randomInUnitSphere()` (`sph`) and `Math.random()` (`unif`) during a
single material-scatter call. -/
structure Rand where
  sph : Vec3 ℚ
  unif : ℚ
  deriving DecidableEq

/-- A material as the integrator sees it (`materials.js` contract):
`scatter(ray, rec)` returns an optional scattered ray plus attenuation,
`emitted(u, v, p)` returns a colour.  The random draws consumed by a
scatter call are passed explicitly. -/
structure MatQ where
  scatter : Rand → Ray ℚ → HitRecord ℚ → Option (Ray ℚ × Vec3 ℚ)
  emitted : ℚ → ℚ → Vec3 ℚ → Vec3 ℚ

/-- A primitive as `World.hit` sees it: a `hit(ray, tMin, tMax)` function
(`tMax` may be `Infinity`, hence `WithTop ℚ`) plus the material the
primitive stores into the records it returns. -/
structure Obj where
  hitf : Ray ℚ → ℚ → WithTop ℚ → Option (HitRecord ℚ)
  mat : MatQ

/-- The light descriptors of `lights.js` (`PointLight`,
`DirectionalLight`).  `World` stores them but, as the claims discuss, the
integrator never reads them. -/
inductive LightQ
  | point (position : Vec3 ℚ) (color : Vec3 ℚ) (intensity : ℚ)
  | directional (direction : Vec3 ℚ) (color : Vec3 ℚ) (intensity : ℚ)
  deriving DecidableEq

/-- The `World` class from `world.js`: object list, light list, sky-intensity
multiplier, and the swappable background function.  The source's
background closures read `this.skyIntensity` dynamically, so here the
background function receives the intensity as its first argument. -/
structure WorldQ where
  objects : List Obj
  lights : List LightQ
  skyIntensity : ℚ
  bgFun : ℚ → Ray ℚ → Vec3 ℚ

/-- Evaluating `this.background(ray)` on a world. -/
def WorldQ.background (w : WorldQ) (ray : Ray ℚ) : Vec3 ℚ :=
  w.bgFun w.skyIntensity ray

/-- The loop body of `World.hit` (`world.js` lines 20-33): scan the
objects, querying each with the current `closestT` as upper bound and
keeping a candidate only when its `t` is strictly smaller. -/
def hitLoop (ray : Ray ℚ) (tMin : ℚ) :
    List Obj → Option (HitRecord ℚ × MatQ) → WithTop ℚ → Option (HitRecord ℚ × MatQ)
  | [], closest, _ => closest
  | o :: os, closest, closestT =>
    match o.hitf ray tMin closestT with
    | some r =>
      if (r.t : WithTop ℚ) < closestT then hitLoop ray tMin os (some (r, o.mat)) (r.t : WithTop ℚ)
      else hitLoop ray tMin os closest closestT
    | none => hitLoop ray tMin os closest closestT

/-- Mirrors `World.hit(ray, tMin, tMax)` from `world.js`. -/
def WorldQ.hit (w : WorldQ) (ray : Ray ℚ) (tMin : ℚ) (tMax : WithTop ℚ) :
    Option (HitRecord ℚ × MatQ) :=
  hitLoop ray tMin w.objects none tMax

/-- The component-wise colour product written out inline in
`RayTracer.rayColor` (`ray-tracer.js` lines 113-117). -/
def hadamard (a b : Vec3 ℚ) : Vec3 ℚ := ⟨a.x * b.x, a.y * b.y, a.z * b.z⟩

/-- Mirrors `RayTracer.rayColor(ray, depth)` (`ray-tracer.js` lines 102-123):
black at exhausted depth, otherwise nearest hit, emitted term, optional
scatter and recursion; background when nothing is hit.  The source's
`0.001` lower bound is the exact rational `1/1000`, `Infinity` is `⊤`,
and `rnd d` supplies the random draws of the scatter performed at
remaining depth `d + 1`. -/
def rayColor (w : WorldQ) (rnd : Nat → Rand) : Ray ℚ → Nat → Vec3 ℚ
  | _, 0 => Vec3.zero
  | ray, Nat.succ d =>
    match WorldQ.hit w ray (1/1000) ⊤ with
    | some (r, m) =>
      match m.scatter (rnd d) ray r with
      | some (scat, att) => (m.emitted r.u r.v r.point).add (hadamard att (rayColor w rnd scat d))
      | none => m.emitted r.u r.v r.point
    | none => w.background ray

/-- The intersection contract assumed of a primitive in the `World.hit`
claims, for one fixed ray: the primitive has a finite set `S` of
intersection parameters with a record `recOf t` at each, and
`hit(ray, tMin, tMax)` returns the record of the smallest parameter
inside the closed query range, or nothing when the range contains no
parameter. -/
def honors (hitf : ℚ → WithTop ℚ → Option (HitRecord ℚ)) (S : Finset ℚ)
    (recOf : ℚ → HitRecord ℚ) : Prop :=
  (∀ t ∈ S, (recOf t).t = t) ∧
  ∀ tMin : ℚ, ∀ tMax : WithTop ℚ,
    ((∀ t ∈ S, ¬(tMin ≤ t ∧ (t : WithTop ℚ) ≤ tMax)) → hitf tMin tMax = none) ∧
    (∀ t0 ∈ S, (tMin ≤ t0 ∧ (t0 : WithTop ℚ) ≤ tMax) →
      (∀ t ∈ S, (tMin ≤ t ∧ (t : WithTop ℚ) ≤ tMax) → t0 ≤ t) →
      hitf tMin tMax = some (recOf t0))

/-- Intersection parameters of `S` that the loop can still record when the
current upper bound is `ct`: at least `tMin` and strictly below `ct` (the
loop keeps a candidate only when `t < closestT`). -/
def candAt (S : Finset ℚ) (tMin : ℚ) (ct : WithTop ℚ) : Finset ℚ :=
  S.filter (fun t => tMin ≤ t ∧ (t : WithTop ℚ) < ct)

/-! ### Layer B: geometric primitives and materials over the reals -/

/-- Mirrors `Vec3.length` from `math.js`: `Math.sqrt(x*x + y*y + z*z)`. -/
noncomputable def Vec3.length (v : Vec3 ℝ) : ℝ :=
  Real.sqrt (v.x * v.x + v.y * v.y + v.z * v.z)

/-- Mirrors `Vec3.normalize` from `math.js`: divide by the length when it is
positive, otherwise return the zero vector. -/
noncomputable def Vec3.normalize (v : Vec3 ℝ) : Vec3 ℝ :=
  if 0 < v.length then v.div v.length else Vec3.zero

/-- Mirrors `HitRecord.setFaceNormal(ray, outwardNormal)` from `math.js`: the pair
(frontFace, stored normal). -/
def setFaceNormal (ray : Ray α) (outwardNormal : Vec3 α) : Bool × Vec3 α :=
  if ray.direction.dot outwardNormal < 0 then (true, outwardNormal)
  else (false, outwardNormal.mul (-1))

/-- Models `Math.atan2(y, x)` as the argument of the complex number
`x + y·i` (both have range `(-π, π]` on nonzero input, and both send the
origin to `0`). -/
noncomputable def jsAtan2 (y x : ℝ) : ℝ := Complex.arg ⟨x, y⟩

/-- The `Sphere` class from `geometry.js` (the material reference is dropped,
see `HitRecord`). -/
structure SphereR where
  center : Vec3 ℝ
  radius : ℝ

/-- Mirrors `Sphere.hit(ray, tMin, tMax)` from `geometry.js` lines 15-45:
quadratic intersection, smaller root first with fallback to the larger
root, then hit point, outward normal, `setFaceNormal`, and the spherical
UV mapping. -/
noncomputable def SphereR.hit (s : SphereR) (ray : Ray ℝ) (tMin tMax : ℝ) :
    Option (HitRecord ℝ) :=
  let oc := ray.origin.sub s.center
  let a := ray.direction.dot ray.direction
  let halfB := oc.dot ray.direction
  let c := oc.dot oc - s.radius * s.radius
  let discriminant := halfB * halfB - a * c
  if discriminant < 0 then none
  else
    let sqrtd := Real.sqrt discriminant
    let root1 := (-halfB - sqrtd) / a
    let root := if root1 < tMin ∨ tMax < root1 then (-halfB + sqrtd) / a else root1
    if root < tMin ∨ tMax < root then none
    else
      let point := ray.at root
      let outwardNormal := (point.sub s.center).div s.radius
      let fn := setFaceNormal ray outwardNormal
      let theta := Real.arccos (-outwardNormal.y)
      let phi := jsAtan2 (-outwardNormal.z) outwardNormal.x + Real.pi
      some ⟨root, point, fn.2, fn.1, phi / (2 * Real.pi), theta / Real.pi⟩

/-- The `Plane` class from `geometry.js`; the constructor normalizes the
normal, see `mkPlane`. -/
structure PlaneG (α : Type) where
  point : Vec3 α
  normal : Vec3 α

/-- The `Plane` constructor: `this.normal = normal.normalize()`. -/
noncomputable def mkPlane (point normal : Vec3 ℝ) : PlaneG ℝ :=
  ⟨point, normal.normalize⟩

/-- Mirrors `Plane.hit(ray, tMin, tMax)` from `geometry.js` lines 56-74. -/
def PlaneG.hit (pl : PlaneG α) (ray : Ray α) (tMin tMax : α) :
    Option (HitRecord α) :=
  let denom := pl.normal.dot ray.direction
  if |denom| < 1/1000000 then none
  else
    let t := (pl.point.sub ray.origin).dot pl.normal / denom
    if t < tMin ∨ t > tMax then none
    else
      let pt := ray.at t
      let fn := setFaceNormal ray pl.normal
      some ⟨t, pt, fn.2, fn.1, (pt.x + 10) / 20, (pt.z + 10) / 20⟩

/-- The `Box` class from `geometry.js`: axis-aligned, given by its `min` and
`max` corners. -/
structure BoxG (α : Type) where
  min : Vec3 α
  max : Vec3 α
  deriving DecidableEq

/-- The face-normal selection block of `Box.hit` (`geometry.js` lines
118-126): epsilon-compare the hit point against the six face planes in a
fixed order, falling back to `+z`. -/
def boxNormal (b : BoxG α) (p : Vec3 α) : Vec3 α :=
  if |p.x - b.min.x| < 1/1000000 then ⟨-1, 0, 0⟩
  else if |p.x - b.max.x| < 1/1000000 then ⟨1, 0, 0⟩
  else if |p.y - b.min.y| < 1/1000000 then ⟨0, -1, 0⟩
  else if |p.y - b.max.y| < 1/1000000 then ⟨0, 1, 0⟩
  else if |p.z - b.min.z| < 1/1000000 then ⟨0, 0, -1⟩
  else ⟨0, 0, 1⟩

/-- Mirrors `Box.hit(ray, tMin, tMax)` from `geometry.js` lines 85-132: the slab
method with per-axis swaps, interval intersection, entry-or-exit `t`
selection, then the epsilon face-normal chain and `setFaceNormal`.
(`Box.hit` never sets `u`/`v`, so they keep the `HitRecord` constructor
default `0`.) -/
def BoxG.hit (b : BoxG α) (ray : Ray α) (tMin tMax : α) : Option (HitRecord α) :=
  let tx1 := (b.min.x - ray.origin.x) / ray.direction.x
  let tx2 := (b.max.x - ray.origin.x) / ray.direction.x
  let txlo := if tx1 > tx2 then tx2 else tx1
  let txhi := if tx1 > tx2 then tx1 else tx2
  let ty1 := (b.min.y - ray.origin.y) / ray.direction.y
  let ty2 := (b.max.y - ray.origin.y) / ray.direction.y
  let tylo := if ty1 > ty2 then ty2 else ty1
  let tyhi := if ty1 > ty2 then ty1 else ty2
  if txlo > tyhi ∨ tylo > txhi then none
  else
    let lo1 := Max.max txlo tylo
    let hi1 := Min.min txhi tyhi
    let tz1 := (b.min.z - ray.origin.z) / ray.direction.z
    let tz2 := (b.max.z - ray.origin.z) / ray.direction.z
    let tzlo := if tz1 > tz2 then tz2 else tz1
    let tzhi := if tz1 > tz2 then tz1 else tz2
    if lo1 > tzhi ∨ tzlo > hi1 then none
    else
      let lo := Max.max lo1 tzlo
      let hi := Min.min hi1 tzhi
      let t := if lo > tMin then lo else hi
      if t < tMin ∨ t > tMax then none
      else
        let p := ray.at t
        let fn := setFaceNormal ray (boxNormal b p)
        some ⟨t, p, fn.2, fn.1, 0, 0⟩

/-- The `Triangle` class from `geometry.js`; the `normal` field is the one the
constructor precomputes, see `mkTriangle`. -/
structure TriangleG (α : Type) where
  v0 : Vec3 α
  v1 : Vec3 α
  v2 : Vec3 α
  normal : Vec3 α

/-- The `Triangle` constructor: precompute
`normal = (v1 - v0).cross(v2 - v0).normalize()`. -/
noncomputable def mkTriangle (v0 v1 v2 : Vec3 ℝ) : TriangleG ℝ :=
  ⟨v0, v1, v2, ((v1.sub v0).cross (v2.sub v0)).normalize⟩

/-- Mirrors `Triangle.hit(ray, tMin, tMax)` from `geometry.js` lines 148-188:
Möller-Trumbore, with the raw barycentric `u`, `v` stored as the surface
coordinates. -/
def TriangleG.hit (tr : TriangleG α) (ray : Ray α) (tMin tMax : α) :
    Option (HitRecord α) :=
  let edge1 := tr.v1.sub tr.v0
  let edge2 := tr.v2.sub tr.v0
  let h := ray.direction.cross edge2
  let a := edge1.dot h
  if |a| < 1/10000 then none
  else
    let f := 1 / a
    let s := ray.origin.sub tr.v0
    let u := f * s.dot h
    if u < 0 ∨ u > 1 then none
    else
      let q := s.cross edge1
      let v := f * ray.direction.dot q
      if v < 0 ∨ u + v > 1 then none
      else
        let t := f * edge2.dot q
        if t < tMin ∨ t > tMax then none
        else
          let fn := setFaceNormal ray tr.normal
          some ⟨t, ray.at t, fn.2, fn.1, u, v⟩

/-- The loop of `TriangleMesh.hit` (`geometry.js` lines 248-262): linear
scan over the owned triangles, shrinking the upper bound to each accepted
hit's `t` (no extra comparison: the triangle test already enforces
`t ≤ closestT`). -/
def meshHitLoop (ray : Ray α) (tMin : α) :
    List (TriangleG α) → Option (HitRecord α) → α → Option (HitRecord α)
  | [], closest, _ => closest
  | tr :: rest, closest, closestT =>
    match tr.hit ray tMin closestT with
    | some h => meshHitLoop ray tMin rest (some h) h.t
    | none => meshHitLoop ray tMin rest closest closestT

/-- Mirrors `TriangleMesh.hit(ray, tMin, tMax)` on the triangle list the
constructor built. -/
def meshHit (triangles : List (TriangleG α)) (ray : Ray α) (tMin tMax : α) :
    Option (HitRecord α) :=
  meshHitLoop ray tMin triangles none tMax

/-- The `Metal` class from `materials.js`; `mkMetal` is the constructor, which
clamps the roughness to at most 1. -/
structure MetalR where
  albedo : Vec3 ℝ
  roughness : ℝ

/-- The `Metal` constructor: `this.roughness = Math.min(roughness, 1)`. -/
def mkMetal (albedo : Vec3 ℝ) (roughness : ℝ) : MetalR := ⟨albedo, min roughness 1⟩

/-- The perturbed reflection direction computed by `Metal.scatter`
(`materials.js` line 37-38), with the unit-sphere draw passed in as
`rnd`. -/
noncomputable def metalDir (m : MetalR) (rnd : Vec3 ℝ) (ray : Ray ℝ) (n : Vec3 ℝ) : Vec3 ℝ :=
  (ray.direction.normalize.reflect n).add (rnd.mul m.roughness)

/-- Mirrors `Metal.scatter(ray, rec)` from `materials.js` lines 36-41: reflect the
normalized incident direction, perturb by roughness (`metalDir`), and
reject (return nothing) unless the result points out of the surface. -/
noncomputable def MetalR.scatter (m : MetalR) (rnd : Vec3 ℝ) (ray : Ray ℝ)
    (r : HitRecord ℝ) : Option (Ray ℝ × Vec3 ℝ) :=
  if (metalDir m rnd ray r.normal).dot r.normal > 0
  then some (⟨r.point, metalDir m rnd ray r.normal⟩, m.albedo) else none

/-- Mirrors `Dielectric.reflectance(cosine, refIdx)` from `materials.js` lines
79-83 (the Schlick approximation). -/
def reflectance (cosine refIdx : α) : α :=
  let r1 := (1 - refIdx) / (1 + refIdx)
  let r0 := r1 * r1
  r0 + (1 - r0) * (1 - cosine)^5

/-- Mirrors `Dielectric.refract(uv, n, etaiOverEtat)` from `materials.js` lines
72-77. -/
noncomputable def refract (uv n : Vec3 ℝ) (etaiOverEtat : ℝ) : Vec3 ℝ :=
  let cosTheta := min ((uv.mul (-1)).dot n) 1
  let rOutPerpendicular := (uv.add (n.mul cosTheta)).mul etaiOverEtat
  let rOutParallel := n.mul (-Real.sqrt |1 - rOutPerpendicular.dot rOutPerpendicular|)
  rOutPerpendicular.add rOutParallel

/-- Mirrors `Dielectric.scatter(ray, rec)` from `materials.js` lines 51-70, with
the `Math.random()` draw passed in as `rnd`.  A dielectric always
scatters, so no `Option`. -/
noncomputable def dielectricScatter (refractionIndex : ℝ) (rnd : ℝ) (ray : Ray ℝ)
    (r : HitRecord ℝ) : Ray ℝ × Vec3 ℝ :=
  let ratio := if r.frontFace then 1 / refractionIndex else refractionIndex
  let unitDirection := ray.direction.normalize
  let cosTheta := min ((unitDirection.mul (-1)).dot r.normal) 1
  let sinTheta := Real.sqrt (1 - cosTheta * cosTheta)
  let cannotRefract := ratio * sinTheta > 1
  let direction :=
    if cannotRefract ∨ reflectance cosTheta ratio > rnd then unitDirection.reflect r.normal
    else refract unitDirection r.normal ratio
  (⟨r.point, direction⟩, ⟨1, 1, 1⟩)

/-- The `HitRecord` invariant of the spec, for one record and the ray that
produced it: unit normal, and the normal points against the ray whenever
`frontFace` is set. -/
noncomputable def goodRec (ray : Ray ℝ) (r : HitRecord ℝ) : Prop :=
  r.normal.length = 1 ∧ (r.frontFace = true → ray.direction.dot r.normal < 0)

/-! ### Layer C: JavaScript number semantics for the Box slab test -/

/-- A JavaScript number as the Box slab test can produce it: an exact
finite value, `Infinity`, `-Infinity`, or `NaN`. -/
inductive ERat
  | fin (q : ℚ)
  | pinf
  | ninf
  | nan
  deriving DecidableEq, Repr

/-- JavaScript `<` on such numbers: every comparison involving `NaN` is
false. -/
def ERat.blt : ERat → ERat → Bool
  | .fin a, .fin b => decide (a < b)
  | .fin _, .pinf => true
  | .ninf, .fin _ => true
  | .ninf, .pinf => true
  | _, _ => false

/-- JavaScript `Math.max`: `NaN` if either argument is `NaN`. -/
def ERat.jmax : ERat → ERat → ERat
  | .nan, _ => .nan
  | _, .nan => .nan
  | .pinf, _ => .pinf
  | _, .pinf => .pinf
  | .ninf, b => b
  | a, .ninf => a
  | .fin a, .fin b => .fin (Max.max a b)

/-- JavaScript `Math.min`: `NaN` if either argument is `NaN`. -/
def ERat.jmin : ERat → ERat → ERat
  | .nan, _ => .nan
  | _, .nan => .nan
  | .ninf, _ => .ninf
  | _, .ninf => .ninf
  | .pinf, b => b
  | a, .pinf => a
  | .fin a, .fin b => .fin (Min.min a b)

/-- JavaScript division of finite numbers: `x/0` is `±Infinity` by the
sign of `x`, and `0/0` is `NaN`. -/
def ediv (num den : ℚ) : ERat :=
  if den ≠ 0 then .fin (num / den)
  else if 0 < num then .pinf
  else if num < 0 then .ninf
  else .nan

/-- JavaScript multiplication of a finite number with an extended one:
`0 * Infinity` and `0 * NaN` are `NaN`. -/
def ERat.qmul (q : ℚ) : ERat → ERat
  | .fin b => .fin (q * b)
  | .pinf => if 0 < q then .pinf else if q < 0 then .ninf else .nan
  | .ninf => if 0 < q then .ninf else if q < 0 then .pinf else .nan
  | .nan => .nan

/-- JavaScript addition of a finite number with an extended one. -/
def ERat.qadd (q : ℚ) : ERat → ERat
  | .fin b => .fin (q + b)
  | .pinf => .pinf
  | .ninf => .ninf
  | .nan => .nan

/-- Subtracting a finite number from an extended one. -/
def ERat.qsub : ERat → ℚ → ERat
  | .fin a, q => .fin (a - q)
  | .pinf, _ => .pinf
  | .ninf, _ => .ninf
  | .nan, _ => .nan

/-- JavaScript `Math.abs` on an extended number. -/
def ERat.eabs : ERat → ERat
  | .fin a => .fin |a|
  | .pinf => .pinf
  | .ninf => .pinf
  | .nan => .nan

/-- Evaluates `ray.at(t)` when `t` is an extended number (component arithmetic as in
JavaScript). -/
def jsRayAt (ray : Ray ℚ) (t : ERat) : Vec3 ERat :=
  ⟨ERat.qadd ray.origin.x (ERat.qmul ray.direction.x t),
   ERat.qadd ray.origin.y (ERat.qmul ray.direction.y t),
   ERat.qadd ray.origin.z (ERat.qmul ray.direction.z t)⟩

/-- The hit record as the JavaScript Box test builds it in this layer
(`u`, `v` stay 0 and are omitted). -/
structure JsRec where
  t : ERat
  point : Vec3 ERat
  normal : Vec3 ℚ
  frontFace : Bool
  deriving DecidableEq, Repr

/-- Mirrors `Box.hit` (`geometry.js` lines 85-132) once more, this time with exact
JavaScript number semantics for the slab divisions, comparisons,
`Math.max`/`Math.min`, and the arithmetic on the resulting `t`.  The ray
data and box corners are exact rationals, so the only rounding-free
difference from IEEE doubles is precision, which plays no role in the
special-value claim this layer serves. -/
def jsBoxHit (b : BoxG ℚ) (ray : Ray ℚ) (tMin tMax : ℚ) : Option JsRec :=
  let tx1 := ediv (b.min.x - ray.origin.x) ray.direction.x
  let tx2 := ediv (b.max.x - ray.origin.x) ray.direction.x
  let txlo := if ERat.blt tx2 tx1 then tx2 else tx1
  let txhi := if ERat.blt tx2 tx1 then tx1 else tx2
  let ty1 := ediv (b.min.y - ray.origin.y) ray.direction.y
  let ty2 := ediv (b.max.y - ray.origin.y) ray.direction.y
  let tylo := if ERat.blt ty2 ty1 then ty2 else ty1
  let tyhi := if ERat.blt ty2 ty1 then ty1 else ty2
  if ERat.blt tyhi txlo || ERat.blt txhi tylo then none
  else
    let lo1 := ERat.jmax txlo tylo
    let hi1 := ERat.jmin txhi tyhi
    let tz1 := ediv (b.min.z - ray.origin.z) ray.direction.z
    let tz2 := ediv (b.max.z - ray.origin.z) ray.direction.z
    let tzlo := if ERat.blt tz2 tz1 then tz2 else tz1
    let tzhi := if ERat.blt tz2 tz1 then tz1 else tz2
    if ERat.blt tzhi lo1 || ERat.blt hi1 tzlo then none
    else
      let lo := ERat.jmax lo1 tzlo
      let hi := ERat.jmin hi1 tzhi
      let t := if ERat.blt (.fin tMin) lo then lo else hi
      if ERat.blt t (.fin tMin) || ERat.blt (.fin tMax) t then none
      else
        let p := jsRayAt ray t
        let nrm : Vec3 ℚ :=
          if ERat.blt ((p.x.qsub b.min.x).eabs) (.fin (1/1000000)) then ⟨-1, 0, 0⟩
          else if ERat.blt ((p.x.qsub b.max.x).eabs) (.fin (1/1000000)) then ⟨1, 0, 0⟩
          else if ERat.blt ((p.y.qsub b.min.y).eabs) (.fin (1/1000000)) then ⟨0, -1, 0⟩
          else if ERat.blt ((p.y.qsub b.max.y).eabs) (.fin (1/1000000)) then ⟨0, 1, 0⟩
          else if ERat.blt ((p.z.qsub b.min.z).eabs) (.fin (1/1000000)) then ⟨0, 0, -1⟩
          else ⟨0, 0, 1⟩
        let fn := setFaceNormal ray nrm
        some ⟨t, p, fn.2, fn.1⟩

/-! ### Concrete scenes used by the counterexamples and witnesses -/

/-- A material that never scatters and emits black (the `Material` base
class defaults). -/
def matNull : MatQ := ⟨fun _ _ _ => none, fun _ _ _ => Vec3.zero⟩

/-- A material that always scatters with attenuation `(1/2,1/2,1/2)` and
emits black: the shape of a Lambertian as the integrator sees it. -/
def matScat : MatQ :=
  ⟨fun rnd _ r => some (⟨r.point, r.normal.add rnd.sph⟩, ⟨1/2, 1/2, 1/2⟩),
   fun _ _ _ => Vec3.zero⟩

/-- A fixed probe ray. -/
def ray0 : Ray ℚ := ⟨Vec3.zero, ⟨0, 0, 1⟩⟩

/-- A fixed stream of random draws. -/
def rnd0 : Nat → Rand := fun _ => ⟨Vec3.zero, 0⟩

/-- A record at parameter 5, used for the boundary counterexample. -/
def rec5 : HitRecord ℚ := ⟨5, ⟨0, 0, 5⟩, ⟨0, 0, -1⟩, true, 0, 0⟩

/-- A contract-honoring primitive whose only intersection (on any ray) is
at `t = 5`. -/
def obj5 : Obj :=
  ⟨fun _ tMin tMax => if tMin ≤ 5 ∧ ((5 : ℚ) : WithTop ℚ) ≤ tMax then some rec5 else none,
   matNull⟩

/-- A world holding only `obj5`. -/
def world5 : WorldQ := ⟨[obj5], [], 1, fun _ _ => Vec3.zero⟩

/-- A record at parameter 2 for the integrator witnesses. -/
def recC2 : HitRecord ℚ := ⟨2, ⟨0, 0, 2⟩, ⟨0, 0, -1⟩, true, 0, 0⟩

/-- An object that always reports `recC2`, with the scattering
non-emissive material. -/
def objC2 : Obj := ⟨fun _ _ _ => some recC2, matScat⟩

/-- A world holding only `objC2`. -/
def worldC2 : WorldQ := ⟨[objC2], [], 1, fun _ _ => ⟨1, 1, 1⟩⟩

/-- An empty world with no lights. -/
def worldA : WorldQ := ⟨[], [], 1, fun _ _ => Vec3.zero⟩

/-- The same world with a point light added. -/
def worldB : WorldQ := ⟨[], [LightQ.point Vec3.zero ⟨1, 1, 1⟩ 10], 1, fun _ _ => Vec3.zero⟩

/-- Tie-break witnesses: two distinct records with the same `t`. -/
def recT1 : HitRecord ℚ := ⟨2, ⟨0, 0, 2⟩, ⟨0, 0, -1⟩, true, 0, 0⟩

/-- Second record of the tie, distinguishable by its surface
coordinates. -/
def recT2 : HitRecord ℚ := ⟨2, ⟨0, 0, 2⟩, ⟨0, 0, -1⟩, true, 7, 7⟩

/-- First object of the tie. -/
def objT1 : Obj := ⟨fun _ _ _ => some recT1, matNull⟩

/-- Second object of the tie. -/
def objT2 : Obj := ⟨fun _ _ _ => some recT2, matScat⟩

/-- World with the two tied objects, `objT1` added first. -/
def worldT : WorldQ := ⟨[objT1, objT2], [], 1, fun _ _ => Vec3.zero⟩

/-- Default record for `Option.getD` projections over the reals. -/
noncomputable def defRecR : HitRecord ℝ := ⟨0, Vec3.zero, Vec3.zero, false, 0, 0⟩

/-- Default record for `Option.getD` projections in the JavaScript
layer. -/
def defRecJ : JsRec := ⟨.fin 0, ⟨.fin 0, .fin 0, .fin 0⟩, Vec3.zero, false⟩

/-- The unit box `[0,1]^3` over the reals. -/
noncomputable def boxR : BoxG ℝ := ⟨⟨0, 0, 0⟩, ⟨1, 1, 1⟩⟩

/-- A ray entering the unit box through its top face at a point within
`1e-6` of the `min.x` face plane (but not on it). -/
noncomputable def rayEdge : Ray ℝ := ⟨⟨0, 2, 0⟩, ⟨1/2000000, -1, 1/2000000⟩⟩

/-- The record `Box.hit` produces for `rayEdge` against `boxR`. -/
noncomputable def recEdge : HitRecord ℝ := ⟨1, ⟨1/2000000, 1, 1/2000000⟩, ⟨-1, 0, 0⟩, true, 0, 0⟩

/-- A diagonal probe ray into the unit box. -/
noncomputable def rayDiag : Ray ℝ := ⟨⟨-1, -1, -1⟩, ⟨1, 1, 1⟩⟩

/-- The record `Box.hit` produces for `rayDiag` against `boxR` (a corner
hit: the `-x` branch of the epsilon chain fires first). -/
noncomputable def recDiag : HitRecord ℝ := ⟨1, ⟨0, 0, 0⟩, ⟨-1, 0, 0⟩, true, 0, 0⟩

/-- A ray whose origin lies on the `max.x` face plane of the unit box and
whose direction has a zero `x` component: the `0/0` slab case. -/
def rayNaN : Ray ℚ := ⟨⟨1, 1/2, 1/2⟩, ⟨0, 1, 0⟩⟩

/-- The unit box `[0,1]^3` over the rationals, for the JavaScript-number
layer. -/
def jbox : BoxG ℚ := ⟨⟨0, 0, 0⟩, ⟨1, 1, 1⟩⟩

/-- An oblique unit-length incident direction with rational components. -/
noncomputable def rayOblique : Ray ℝ := ⟨Vec3.zero, ⟨3/5, 0, -4/5⟩⟩

/-- A front-face hit record with normal `+z`, as produced against
`rayOblique`. -/
noncomputable def recOblique : HitRecord ℝ := ⟨1, Vec3.zero, ⟨0, 0, 1⟩, true, 0, 0⟩

/-- Normal-incidence ray for the dielectric witness. -/
noncomputable def rayAxial : Ray ℝ := ⟨Vec3.zero, ⟨0, 0, -1⟩⟩

/-- A front-face hit record with normal `+z`, as produced against
`rayAxial`. -/
noncomputable def recAxial : HitRecord ℝ := ⟨1, Vec3.zero, ⟨0, 0, 1⟩, true, 0, 0⟩

/-! ### Helper lemmas -/

theorem vadd_zero (v : Vec3 ℚ) : v.add Vec3.zero = v := by
  cases v
  simp [Vec3.add, Vec3.zero]

theorem hadamard_zero (a : Vec3 ℚ) : hadamard a Vec3.zero = Vec3.zero := by
  simp [hadamard, Vec3.zero]

theorem rayColor_succ (w : WorldQ) (rnd : Nat → Rand) (ray : Ray ℚ) (d : Nat) :
    rayColor w rnd ray (Nat.succ d) =
      match WorldQ.hit w ray (1/1000) ⊤ with
      | some (r, m) =>
        match m.scatter (rnd d) ray r with
        | some (scat, att) =>
          (m.emitted r.u r.v r.point).add (hadamard att (rayColor w rnd scat d))
        | none => m.emitted r.u r.v r.point
      | none => w.background ray := rfl

theorem rayColor_succ_none (w : WorldQ) (rnd : Nat → Rand) (ray : Ray ℚ) (d : Nat)
    (h : WorldQ.hit w ray (1/1000) ⊤ = none) :
    rayColor w rnd ray (Nat.succ d) = w.background ray := by
  rw [rayColor_succ, h]

theorem rayColor_succ_some (w : WorldQ) (rnd : Nat → Rand) (ray : Ray ℚ) (d : Nat)
    (r : HitRecord ℚ) (m : MatQ) (h : WorldQ.hit w ray (1/1000) ⊤ = some (r, m)) :
    rayColor w rnd ray (Nat.succ d) =
      match m.scatter (rnd d) ray r with
      | some (scat, att) =>
        (m.emitted r.u r.v r.point).add (hadamard att (rayColor w rnd scat d))
      | none => m.emitted r.u r.v r.point := by
  rw [rayColor_succ, h]

theorem rayColor_succ_absorbed (w : WorldQ) (rnd : Nat → Rand) (ray : Ray ℚ) (d : Nat)
    (r : HitRecord ℚ) (m : MatQ) (h : WorldQ.hit w ray (1/1000) ⊤ = some (r, m))
    (hs : m.scatter (rnd d) ray r = none) :
    rayColor w rnd ray (Nat.succ d) = m.emitted r.u r.v r.point := by
  rw [rayColor_succ_some w rnd ray d r m h, hs]

theorem rayColor_succ_scattered (w : WorldQ) (rnd : Nat → Rand) (ray : Ray ℚ) (d : Nat)
    (r : HitRecord ℚ) (m : MatQ) (scat : Ray ℚ) (att : Vec3 ℚ)
    (h : WorldQ.hit w ray (1/1000) ⊤ = some (r, m))
    (hs : m.scatter (rnd d) ray r = some (scat, att)) :
    rayColor w rnd ray (Nat.succ d) =
      (m.emitted r.u r.v r.point).add (hadamard att (rayColor w rnd scat d)) := by
  rw [rayColor_succ_some w rnd ray d r m h, hs]

theorem hitLoop_cons_none (ray : Ray ℚ) (tMin : ℚ) (o : Obj) (os : List Obj)
    (acc : Option (HitRecord ℚ × MatQ)) (ct : WithTop ℚ)
    (h : o.hitf ray tMin ct = none) :
    hitLoop ray tMin (o :: os) acc ct = hitLoop ray tMin os acc ct := by
  rw [hitLoop, h]

theorem hitLoop_cons_some (ray : Ray ℚ) (tMin : ℚ) (o : Obj) (os : List Obj)
    (acc : Option (HitRecord ℚ × MatQ)) (ct : WithTop ℚ) (r : HitRecord ℚ)
    (h : o.hitf ray tMin ct = some r) :
    hitLoop ray tMin (o :: os) acc ct =
      if (r.t : WithTop ℚ) < ct then hitLoop ray tMin os (some (r, o.mat)) (r.t : WithTop ℚ)
      else hitLoop ray tMin os acc ct := by
  rw [hitLoop, h]

theorem mem_candAt {S : Finset ℚ} {tMin : ℚ} {ct : WithTop ℚ} {t : ℚ} :
    t ∈ candAt S tMin ct ↔ t ∈ S ∧ tMin ≤ t ∧ (t : WithTop ℚ) < ct := by
  simp [candAt, and_assoc]

theorem candAt_mono (S : Finset ℚ) (tMin : ℚ) {ct' ct : WithTop ℚ} (h : ct' ≤ ct) :
    candAt S tMin ct' ⊆ candAt S tMin ct := by
  intro t ht
  rw [mem_candAt] at ht ⊢
  exact ⟨ht.1, ht.2.1, lt_of_lt_of_le ht.2.2 h⟩

theorem honors_inversion (hitf : ℚ → WithTop ℚ → Option (HitRecord ℚ)) (S : Finset ℚ)
    (recOf : ℚ → HitRecord ℚ) (hh : honors hitf S recOf) (tMin : ℚ) (ct : WithTop ℚ) :
    (hitf tMin ct = none ∧ ∀ t ∈ S, ¬(tMin ≤ t ∧ (t : WithTop ℚ) ≤ ct)) ∨
    (∃ t0 ∈ S, (tMin ≤ t0 ∧ (t0 : WithTop ℚ) ≤ ct) ∧
      (∀ t ∈ S, (tMin ≤ t ∧ (t : WithTop ℚ) ≤ ct) → t0 ≤ t) ∧
      hitf tMin ct = some (recOf t0)) := by
  by_cases hT : (S.filter (fun t => tMin ≤ t ∧ (t : WithTop ℚ) ≤ ct)).Nonempty
  · right
    obtain ⟨t0, ht0, hmin⟩ := Finset.exists_min_image _ id hT
    rw [Finset.mem_filter] at ht0
    refine ⟨t0, ht0.1, ht0.2, ?_, ?_⟩
    · intro t htS htr
      exact hmin t (Finset.mem_filter.mpr ⟨htS, htr⟩)
    · exact (hh.2 tMin ct).2 t0 ht0.1 ht0.2 fun t htS htr =>
        hmin t (Finset.mem_filter.mpr ⟨htS, htr⟩)
  · left
    have hall : ∀ t ∈ S, ¬(tMin ≤ t ∧ (t : WithTop ℚ) ≤ ct) := by
      intro t htS htr
      exact hT ⟨t, Finset.mem_filter.mpr ⟨htS, htr⟩⟩
    exact ⟨(hh.2 tMin ct).1 hall, hall⟩

theorem hitLoop_skip_all (ray : Ray ℚ) (tMin : ℚ) (Ss : Obj → Finset ℚ)
    (recOfs : Obj → ℚ → HitRecord ℚ) :
    ∀ (os : List Obj), (∀ o ∈ os, honors (o.hitf ray) (Ss o) (recOfs o)) →
    ∀ (acc : Option (HitRecord ℚ × MatQ)) (ct : WithTop ℚ),
      (∀ o ∈ os, candAt (Ss o) tMin ct = ∅) → hitLoop ray tMin os acc ct = acc := by
  intro os
  induction os with
  | nil => intro _ acc ct _; rfl
  | cons o os ih =>
    intro hc acc ct hemp
    have ho := hc o (List.mem_cons_self o os)
    have hc' : ∀ o' ∈ os, honors (o'.hitf ray) (Ss o') (recOfs o') :=
      fun o' h => hc o' (List.mem_cons_of_mem _ h)
    have hemp' : ∀ o' ∈ os, candAt (Ss o') tMin ct = ∅ :=
      fun o' h => hemp o' (List.mem_cons_of_mem _ h)
    rcases honors_inversion _ _ _ ho tMin ct with ⟨hnone, _⟩ | ⟨t0, ht0S, ht0r, _, hsome⟩
    · rw [hitLoop_cons_none ray tMin o os acc ct hnone]
      exact ih hc' acc ct hemp'
    · rw [hitLoop_cons_some ray tMin o os acc ct _ hsome]
      have hrt : (recOfs o t0).t = t0 := ho.1 t0 ht0S
      have hnotlt : ¬((recOfs o t0).t : WithTop ℚ) < ct := by
        rw [hrt]
        intro hlt
        have hmem : t0 ∈ candAt (Ss o) tMin ct := mem_candAt.mpr ⟨ht0S, ht0r.1, hlt⟩
        rw [hemp o (List.mem_cons_self o os)] at hmem
        exact absurd hmem (Finset.not_mem_empty t0)
      rw [if_neg hnotlt]
      exact ih hc' acc ct hemp'

theorem hitLoop_finds_min (ray : Ray ℚ) (tMin : ℚ) (Ss : Obj → Finset ℚ)
    (recOfs : Obj → ℚ → HitRecord ℚ) :
    ∀ (os : List Obj), (∀ o ∈ os, honors (o.hitf ray) (Ss o) (recOfs o)) →
    ∀ (acc : Option (HitRecord ℚ × MatQ)) (ct : WithTop ℚ) (t0 : ℚ),
      (∃ o ∈ os, t0 ∈ candAt (Ss o) tMin ct) →
      (∀ o ∈ os, ∀ t ∈ candAt (Ss o) tMin ct, t0 ≤ t) →
      ∃ o ∈ os, hitLoop ray tMin os acc ct = some (recOfs o t0, o.mat) := by
  intro os
  induction os with
  | nil =>
    intro _ acc ct t0 hex _
    obtain ⟨o, ho, _⟩ := hex
    exact absurd ho (List.not_mem_nil o)
  | cons o os ih =>
    intro hc acc ct t0 hex hmin
    have ho := hc o (List.mem_cons_self o os)
    have hc' : ∀ o' ∈ os, honors (o'.hitf ray) (Ss o') (recOfs o') :=
      fun o' h => hc o' (List.mem_cons_of_mem _ h)
    rcases honors_inversion _ _ _ ho tMin ct with ⟨hnone, hallout⟩ |
      ⟨tm, htmS, htmr, htmmin, hsome⟩
    · rw [hitLoop_cons_none ray tMin o os acc ct hnone]
      obtain ⟨o', ho', ht0⟩ := hex
      rcases List.mem_cons.mp ho' with rfl | ho's
      · exfalso
        rw [mem_candAt] at ht0
        exact hallout t0 ht0.1 ⟨ht0.2.1, le_of_lt ht0.2.2⟩
      · obtain ⟨o'', ho''s, heq⟩ := ih hc' acc ct t0 ⟨o', ho's, ht0⟩
          (fun o'' h t ht => hmin o'' (List.mem_cons_of_mem _ h) t ht)
        exact ⟨o'', List.mem_cons_of_mem _ ho''s, heq⟩
    · have hrt : (recOfs o tm).t = tm := ho.1 tm htmS
      rw [hitLoop_cons_some ray tMin o os acc ct _ hsome, hrt]
      by_cases hlt : (tm : WithTop ℚ) < ct
      · rw [if_pos hlt]
        have htmcand : tm ∈ candAt (Ss o) tMin ct := mem_candAt.mpr ⟨htmS, htmr.1, hlt⟩
        have ht0tm : t0 ≤ tm := hmin o (List.mem_cons_self o os) tm htmcand
        rcases eq_or_lt_of_le ht0tm with rfl | ht0lt
        · have hempty : ∀ o' ∈ os, candAt (Ss o') tMin (t0 : WithTop ℚ) = ∅ := by
            intro o' ho's
            rw [Finset.eq_empty_iff_forall_not_mem]
            intro t ht
            have htc : t ∈ candAt (Ss o') tMin ct :=
              candAt_mono _ _ (le_of_lt hlt) ht
            have h1 := hmin o' (List.mem_cons_of_mem _ ho's) t htc
            rw [mem_candAt] at ht
            have hcoe : (t : WithTop ℚ) < (t0 : WithTop ℚ) := ht.2.2
            rw [WithTop.coe_lt_coe] at hcoe
            linarith
          rw [hitLoop_skip_all ray tMin Ss recOfs os hc' _ _ hempty]
          exact ⟨o, List.mem_cons_self o os, rfl⟩
        · obtain ⟨o', ho', ht0⟩ := hex
          rcases List.mem_cons.mp ho' with rfl | ho's
          · exfalso
            rw [mem_candAt] at ht0
            have := htmmin t0 ht0.1 ⟨ht0.2.1, le_of_lt ht0.2.2⟩
            linarith
          · have hex' : ∃ o'' ∈ os, t0 ∈ candAt (Ss o'') tMin (tm : WithTop ℚ) := by
              refine ⟨o', ho's, ?_⟩
              rw [mem_candAt] at ht0 ⊢
              exact ⟨ht0.1, ht0.2.1, WithTop.coe_lt_coe.mpr ht0lt⟩
            have hmin' : ∀ o'' ∈ os, ∀ t ∈ candAt (Ss o'') tMin (tm : WithTop ℚ), t0 ≤ t :=
              fun o'' h t ht => hmin o'' (List.mem_cons_of_mem _ h) t
                (candAt_mono _ _ (le_of_lt hlt) ht)
            obtain ⟨o'', ho''s, heq⟩ := ih hc' (some (recOfs o tm, o.mat))
              (tm : WithTop ℚ) t0 hex' hmin'
            exact ⟨o'', List.mem_cons_of_mem _ ho''s, heq⟩
      · rw [if_neg hlt]
        obtain ⟨o', ho', ht0⟩ := hex
        rcases List.mem_cons.mp ho' with rfl | ho's
        · exfalso
          rw [mem_candAt] at ht0
          have h1 := htmmin t0 ht0.1 ⟨ht0.2.1, le_of_lt ht0.2.2⟩
          exact hlt (lt_of_le_of_lt (WithTop.coe_le_coe.mpr h1) ht0.2.2)
        · obtain ⟨o'', ho''s, heq⟩ := ih hc' acc ct t0 ⟨o', ho's, ht0⟩
            (fun o'' h t ht => hmin o'' (List.mem_cons_of_mem _ h) t ht)
          exact ⟨o'', List.mem_cons_of_mem _ ho''s, heq⟩

/-! ### Claim C1 -/

/-- Claim C1 (amended): for every ray and bounds, if each primitive's hit
honors the contract `honors` (it returns the record of its smallest
intersection parameter inside the queried closed range, or nothing),
then `World.hit` returns nothing when no primitive has an intersection
`t` with `tMin ≤ t < tMax`, and whenever `t0` is the global minimum of
the intersections with `tMin ≤ t < tMax` it returns some primitive's
record at `t0`.  (An intersection exactly at `tMax` is discarded by the
strict `hit.t < closestT` comparison; see the counterexample.) -/
theorem worldHit_global_min (w : WorldQ) (ray : Ray ℚ) (tMin : ℚ) (tMax : WithTop ℚ)
    (Ss : Obj → Finset ℚ) (recOfs : Obj → ℚ → HitRecord ℚ)
    (hc : ∀ o ∈ w.objects, honors (o.hitf ray) (Ss o) (recOfs o)) :
    ((∀ o ∈ w.objects, candAt (Ss o) tMin tMax = ∅) →
      WorldQ.hit w ray tMin tMax = none) ∧
    (∀ t0 : ℚ, (∃ o ∈ w.objects, t0 ∈ candAt (Ss o) tMin tMax) →
      (∀ o ∈ w.objects, ∀ t ∈ candAt (Ss o) tMin tMax, t0 ≤ t) →
      ∃ o ∈ w.objects, WorldQ.hit w ray tMin tMax = some (recOfs o t0, o.mat)) :=
  ⟨fun hemp => hitLoop_skip_all ray tMin Ss recOfs w.objects hc none tMax hemp,
   fun t0 hex hmin => hitLoop_finds_min ray tMin Ss recOfs w.objects hc none tMax t0 hex hmin⟩

theorem obj5_honors : honors (obj5.hitf ray0) {5} (fun _ => rec5) := by
  constructor
  · intro t ht
    rw [Finset.mem_singleton] at ht
    rw [ht]
    rfl
  · intro tMin tMax
    constructor
    · intro hall
      have h5 := hall 5 (Finset.mem_singleton_self 5)
      show (if tMin ≤ 5 ∧ ((5 : ℚ) : WithTop ℚ) ≤ tMax then some rec5 else none) = none
      rw [if_neg h5]
    · intro t0 ht0 hr _
      rw [Finset.mem_singleton] at ht0
      subst ht0
      show (if tMin ≤ 5 ∧ ((5 : ℚ) : WithTop ℚ) ≤ tMax then some rec5 else none) = some rec5
      rw [if_pos hr]

/-- Claim C1 counterexample: a contract-honoring primitive whose only
intersection lies exactly at `t = tMax = 5` — inside the closed range
`[0, 5]` the claim quantifies over — yet `World.hit` returns nothing,
because the scan keeps a candidate only when `hit.t < closestT` and
`closestT` starts at `tMax`. -/
theorem worldHit_tMax_boundary_cex :
    honors (obj5.hitf ray0) {5} (fun _ => rec5) ∧
    ((0 : ℚ) ≤ 5 ∧ ((5 : ℚ) : WithTop ℚ) ≤ ((5 : ℚ) : WithTop ℚ)) ∧
    WorldQ.hit world5 ray0 0 ((5 : ℚ) : WithTop ℚ) = none := by
  refine ⟨obj5_honors, ⟨by norm_num, le_refl _⟩, ?_⟩
  have h5 : obj5.hitf ray0 0 ((5 : ℚ) : WithTop ℚ) = some rec5 := by
    show (if (0 : ℚ) ≤ 5 ∧ ((5 : ℚ) : WithTop ℚ) ≤ ((5 : ℚ) : WithTop ℚ)
      then some rec5 else none) = some rec5
    rw [if_pos ⟨by norm_num, le_refl _⟩]
  show hitLoop ray0 0 [obj5] none ((5 : ℚ) : WithTop ℚ) = none
  rw [hitLoop_cons_some ray0 0 obj5 [] none _ rec5 h5]
  rw [if_neg (by rw [show rec5.t = (5 : ℚ) from rfl]; exact lt_irrefl _)]
  rfl

/-- Claim C1 witness: one contract-honoring primitive with its single
intersection at `t = 5` inside `[0, ∞)`; `World.hit` returns its record
with the material. -/
theorem worldHit_global_min_witness :
    WorldQ.hit world5 ray0 0 ⊤ = some (rec5, obj5.mat) := by
  have hc : ∀ o ∈ world5.objects, honors (o.hitf ray0) ((fun _ => ({5} : Finset ℚ)) o)
      ((fun _ => (fun _ => rec5)) o) := by
    intro o ho
    rcases List.mem_singleton.mp ho with rfl
    exact obj5_honors
  have hex : ∃ o ∈ world5.objects, (5 : ℚ) ∈ candAt {5} 0 ⊤ :=
    ⟨obj5, List.mem_singleton_self obj5,
      mem_candAt.mpr ⟨Finset.mem_singleton_self 5, by norm_num, WithTop.coe_lt_top 5⟩⟩
  have hmin : ∀ o ∈ world5.objects, ∀ t ∈ candAt {5} 0 ⊤, (5 : ℚ) ≤ t := by
    intro o _ t ht
    rw [mem_candAt, Finset.mem_singleton] at ht
    rw [ht.1]
  obtain ⟨o, ho, heq⟩ := (worldHit_global_min world5 ray0 0 ⊤ (fun _ => {5})
    (fun _ _ => rec5) hc).2 5 hex hmin
  rcases List.mem_singleton.mp ho with rfl
  exact heq

/-! ### Claim C2 -/

/-- Claim C2: for every ray, `rayColor` at depth 0 returns black; at depth
1 (a render with `maxBounces = 1`) the result is exactly the nearest
hit's emitted colour — the scatter contribution is `attenuation ⊙ black`
— or the background when nothing is hit; so a hit on a non-emissive
surface (scattering or not) renders black before tone mapping. -/
theorem rayColor_depth_exhaustion (w : WorldQ) (rnd : Nat → Rand) (ray : Ray ℚ) :
    rayColor w rnd ray 0 = Vec3.zero ∧
    (∀ r m, WorldQ.hit w ray (1/1000) ⊤ = some (r, m) →
      rayColor w rnd ray 1 = m.emitted r.u r.v r.point) ∧
    (WorldQ.hit w ray (1/1000) ⊤ = none → rayColor w rnd ray 1 = w.background ray) ∧
    (∀ r m, WorldQ.hit w ray (1/1000) ⊤ = some (r, m) →
      m.emitted r.u r.v r.point = Vec3.zero → rayColor w rnd ray 1 = Vec3.zero) := by
  have key : ∀ r m, WorldQ.hit w ray (1/1000) ⊤ = some (r, m) →
      rayColor w rnd ray 1 = m.emitted r.u r.v r.point := by
    intro r m h
    show rayColor w rnd ray (Nat.succ 0) = _
    cases hs : m.scatter (rnd 0) ray r with
    | none => exact rayColor_succ_absorbed w rnd ray 0 r m h hs
    | some p =>
      obtain ⟨scat, att⟩ := p
      rw [rayColor_succ_scattered w rnd ray 0 r m scat att h hs,
        show rayColor w rnd scat 0 = Vec3.zero from rfl, hadamard_zero, vadd_zero]
  refine ⟨rfl, key, ?_, ?_⟩
  · intro h
    show rayColor w rnd ray (Nat.succ 0) = _
    exact rayColor_succ_none w rnd ray 0 h
  · intro r m h he
    rw [key r m h, he]

/-- Claim C2 witness: on the one-object world `worldC2` whose material
scatters with zero emission, a depth-1 trace of the probe ray is
black. -/
theorem rayColor_depth_exhaustion_witness :
    WorldQ.hit worldC2 ray0 (1/1000) ⊤ = some (recC2, matScat) ∧
    rayColor worldC2 rnd0 ray0 1 = Vec3.zero := by
  have hhit : WorldQ.hit worldC2 ray0 (1/1000) ⊤ = some (recC2, matScat) := by
    show hitLoop ray0 (1/1000) [objC2] none ⊤ = some (recC2, matScat)
    rw [hitLoop]
    show (if ((2 : ℚ) : WithTop ℚ) < ⊤ then hitLoop ray0 (1/1000) [] (some (recC2, matScat))
          ((2 : ℚ) : WithTop ℚ) else hitLoop ray0 (1/1000) [] none ⊤) = _
    rw [if_pos (WithTop.coe_lt_top (2 : ℚ))]
    rfl
  exact ⟨hhit,
    (rayColor_depth_exhaustion worldC2 rnd0 ray0).2.2.2 recC2 matScat hhit rfl⟩

/-! ### Claim C9 -/

/-- Claim C9: the integrator never consults the light list — two worlds
with the same objects, background function and sky intensity but
arbitrary light lists produce the same colour for every ray, depth and
random stream. -/
theorem rayColor_ignores_lights (w1 w2 : WorldQ) (hobj : w1.objects = w2.objects)
    (hbg : w1.bgFun = w2.bgFun) (hsky : w1.skyIntensity = w2.skyIntensity)
    (rnd : Nat → Rand) :
    ∀ (d : Nat) (ray : Ray ℚ), rayColor w1 rnd ray d = rayColor w2 rnd ray d := by
  intro d
  induction d with
  | zero => intro ray; rfl
  | succ d ih =>
    intro ray
    show rayColor w1 rnd ray (Nat.succ d) = rayColor w2 rnd ray (Nat.succ d)
    have hhit : WorldQ.hit w1 ray (1/1000) ⊤ = WorldQ.hit w2 ray (1/1000) ⊤ := by
      unfold WorldQ.hit
      rw [hobj]
    have hbg2 : w1.background ray = w2.background ray := by
      unfold WorldQ.background
      rw [hbg, hsky]
    cases h : WorldQ.hit w2 ray (1/1000) ⊤ with
    | none =>
      rw [rayColor_succ_none w1 rnd ray d (hhit.trans h), rayColor_succ_none w2 rnd ray d h]
      exact hbg2
    | some pr =>
      obtain ⟨r, m⟩ := pr
      cases hs : m.scatter (rnd d) ray r with
      | none =>
        rw [rayColor_succ_absorbed w1 rnd ray d r m (hhit.trans h) hs,
          rayColor_succ_absorbed w2 rnd ray d r m h hs]
      | some p =>
        obtain ⟨scat, att⟩ := p
        rw [rayColor_succ_scattered w1 rnd ray d r m scat att (hhit.trans h) hs,
          rayColor_succ_scattered w2 rnd ray d r m scat att h hs, ih scat]

/-- Claim C9 witness: the empty world and the same world with a point
light added render the probe ray identically at depth 5. -/
theorem rayColor_ignores_lights_witness :
    worldA.lights ≠ worldB.lights ∧
    rayColor worldA rnd0 ray0 5 = rayColor worldB rnd0 ray0 5 :=
  ⟨by decide, rayColor_ignores_lights worldA worldB rfl rfl rfl rnd0 5 ray0⟩

/-! ### Claim C10 -/

/-- Claim C10: `World.hit` breaks exact-`t` ties in favour of the
primitive added first: a later candidate replaces the current best only
when its `t` is strictly smaller, so when the second object reports the
same `t` the first object's record (and material) is returned. -/
theorem worldHit_tie_break (w : WorldQ) (o1 o2 : Obj) (ray : Ray ℚ) (tMin : ℚ)
    (tMax : WithTop ℚ) (r1 r2 : HitRecord ℚ)
    (hobjs : w.objects = [o1, o2])
    (h1 : o1.hitf ray tMin tMax = some r1)
    (h1t : (r1.t : WithTop ℚ) < tMax)
    (h2 : o2.hitf ray tMin (r1.t : WithTop ℚ) = some r2)
    (h2t : r2.t = r1.t) :
    WorldQ.hit w ray tMin tMax = some (r1, o1.mat) := by
  unfold WorldQ.hit
  rw [hobjs]
  rw [hitLoop, h1]
  show (if (r1.t : WithTop ℚ) < tMax then _ else _) = _
  rw [if_pos h1t]
  rw [hitLoop, h2]
  show (if (r2.t : WithTop ℚ) < (r1.t : WithTop ℚ) then _ else _) = _
  rw [if_neg (by rw [h2t]; exact lt_irrefl _), hitLoop]

/-- Claim C10 witness: two constant objects tied at `t = 2`; the scan
returns the first object's record and material. -/
theorem worldHit_tie_break_witness :
    WorldQ.hit worldT ray0 0 ⊤ = some (recT1, objT1.mat) :=
  worldHit_tie_break worldT objT1 objT2 ray0 0 ⊤ recT1 recT2 rfl rfl
    (WithTop.coe_lt_top recT1.t) rfl rfl

/-! ### Claim C7 -/

/-- Claim C7: `Metal.scatter` produces a result exactly when the
perturbed reflected direction points out of the surface: it returns
nothing iff `dot(scattered, normal) ≤ 0`, and any returned scattered ray
has the perturbed reflected direction with `dot(scattered, normal) >
0`. -/
theorem metal_scatter_rejection (m : MetalR) (rnd : Vec3 ℝ) (ray : Ray ℝ)
    (r : HitRecord ℝ) :
    (MetalR.scatter m rnd ray r = none ↔ (metalDir m rnd ray r.normal).dot r.normal ≤ 0) ∧
    (∀ sc, MetalR.scatter m rnd ray r = some sc →
      sc.1.direction.dot r.normal > 0 ∧ sc.1.direction = metalDir m rnd ray r.normal) := by
  unfold MetalR.scatter
  constructor
  · by_cases h : (metalDir m rnd ray r.normal).dot r.normal > 0
    · rw [if_pos h]
      simp only [reduceCtorEq, false_iff, not_le]
      exact h
    · rw [if_neg h]
      simp only [true_iff]
      exact le_of_not_lt h
  · intro sc hsc
    by_cases h : (metalDir m rnd ray r.normal).dot r.normal > 0
    · rw [if_pos h] at hsc
      obtain rfl : (⟨⟨r.point, metalDir m rnd ray r.normal⟩, m.albedo⟩ :
          Ray ℝ × Vec3 ℝ) = sc := Option.some.inj hsc
      exact ⟨h, rfl⟩
    · rw [if_neg h] at hsc
      exact absurd hsc (by simp)

theorem dot_self_eq (v : Vec3 ℝ) : v.length * v.length = v.x * v.x + v.y * v.y + v.z * v.z := by
  unfold Vec3.length
  exact Real.mul_self_sqrt
    (by nlinarith [mul_self_nonneg v.x, mul_self_nonneg v.y, mul_self_nonneg v.z])

theorem length_pos_of_ne_zero {v : Vec3 ℝ} (h : v ≠ Vec3.zero) : 0 < v.length := by
  unfold Vec3.length
  apply Real.sqrt_pos.mpr
  by_contra hn
  push_neg at hn
  have hx : v.x = 0 := mul_self_eq_zero.mp (le_antisymm
    (by nlinarith [mul_self_nonneg v.y, mul_self_nonneg v.z]) (mul_self_nonneg _))
  have hy : v.y = 0 := mul_self_eq_zero.mp (le_antisymm
    (by nlinarith [mul_self_nonneg v.x, mul_self_nonneg v.z]) (mul_self_nonneg _))
  have hz : v.z = 0 := mul_self_eq_zero.mp (le_antisymm
    (by nlinarith [mul_self_nonneg v.x, mul_self_nonneg v.y]) (mul_self_nonneg _))
  apply h
  cases v
  simp_all [Vec3.zero]

theorem normalize_unit {v : Vec3 ℝ} (h : v ≠ Vec3.zero) : v.normalize.length = 1 := by
  have hpos := length_pos_of_ne_zero h
  have hS := dot_self_eq v
  unfold Vec3.normalize
  rw [if_pos hpos]
  show Real.sqrt ((v.x / v.length) * (v.x / v.length) + (v.y / v.length) * (v.y / v.length) +
    (v.z / v.length) * (v.z / v.length)) = 1
  have harg : (v.x / v.length) * (v.x / v.length) + (v.y / v.length) * (v.y / v.length) +
      (v.z / v.length) * (v.z / v.length) = 1 := by
    field_simp
    linarith [hS]
  rw [harg, Real.sqrt_one]

theorem normalize_of_length_one {v : Vec3 ℝ} (h : v.length = 1) : v.normalize = v := by
  unfold Vec3.normalize
  rw [if_pos (h ▸ one_pos), h]
  cases v
  simp [Vec3.div]

theorem unit_dot {u : Vec3 ℝ} (h : u.length = 1) : u.dot u = 1 := by
  have := dot_self_eq u
  rw [h] at this
  unfold Vec3.dot
  linarith

theorem neg_one_mul_dot (u n : Vec3 ℝ) : (u.mul (-1)).dot n = -(u.dot n) := by
  unfold Vec3.mul Vec3.dot
  ring

theorem refract_ratio_one (u n : Vec3 ℝ) (huu : u.dot u = 1) (hnn : n.dot n = 1)
    (hcos : u.dot n ≤ 0) (hge : -1 ≤ u.dot n) : refract u n 1 = u := by
  have huu2 : u.x * u.x + u.y * u.y + u.z * u.z = 1 := huu
  have hnn2 : n.x * n.x + n.y * n.y + n.z * n.z = 1 := hnn
  have hperp : ∀ c : ℝ, u.x * n.x + u.y * n.y + u.z * n.z = -c →
      ((u.add (n.mul c)).mul 1).dot ((u.add (n.mul c)).mul 1) = 1 - c * c := by
    intro c hc
    unfold Vec3.add Vec3.mul Vec3.dot
    linear_combination huu2 + (c * c) * hnn2 + (2 * c) * hc
  unfold refract
  dsimp only
  rw [neg_one_mul_dot, min_eq_left (by linarith : -(u.dot n) ≤ 1)]
  rw [hperp (-(u.dot n)) (by rw [neg_neg]; rfl)]
  rw [show |1 - (1 - -(u.dot n) * -(u.dot n))| = -(u.dot n) * -(u.dot n) by
    rw [show (1 : ℝ) - (1 - -(u.dot n) * -(u.dot n)) = -(u.dot n) * -(u.dot n) by ring]
    exact abs_of_nonneg (mul_self_nonneg _)]
  rw [Real.sqrt_mul_self_eq_abs, abs_of_nonneg (by linarith : (0 : ℝ) ≤ -(u.dot n))]
  cases u
  cases n
  simp only [Vec3.add, Vec3.mul, Vec3.dot, Vec3.mk.injEq]
  refine ⟨by ring, by ring, by ring⟩

/-! ### Claim C3 -/

/-- Claim C3 (amended): for a Dielectric with `indexOfRefraction = 1`,
whenever the refraction branch is taken — no total internal reflection
can occur, and the uniform draw is at least the Schlick reflectance
`(1 - cosθ)^5 = (1 + dot(unit, normal))^5` — the scattered direction is
exactly the normalized incident direction.  The claim's original "for
every random draw" fails: a draw below the reflectance selects the
reflect branch, which bends the ray at any non-normal incidence (see the
counterexample). -/
theorem dielectric_ior_one_refraction (rnd : ℝ) (ray : Ray ℝ) (r : HitRecord ℝ)
    (hd : ray.direction ≠ Vec3.zero)
    (hn : r.normal.length = 1)
    (hcos : (ray.direction.normalize).dot r.normal ≤ 0)
    (hge : -1 ≤ (ray.direction.normalize).dot r.normal)
    (hr : (1 + (ray.direction.normalize).dot r.normal)^5 ≤ rnd) :
    (dielectricScatter 1 rnd ray r).1.direction = ray.direction.normalize := by
  have hu : ray.direction.normalize.length = 1 := normalize_unit hd
  have huu : ray.direction.normalize.dot ray.direction.normalize = 1 := unit_dot hu
  have hnn : r.normal.dot r.normal = 1 := unit_dot hn
  unfold dielectricScatter
  dsimp only
  have hratio : (if r.frontFace then 1 / (1 : ℝ) else 1) = 1 := by
    split <;> norm_num
  rw [hratio, neg_one_mul_dot,
    min_eq_left (by linarith : -(ray.direction.normalize.dot r.normal) ≤ 1)]
  set d := ray.direction.normalize.dot r.normal with hd_def
  have hsin : Real.sqrt (1 - -d * -d) ≤ 1 := by
    calc Real.sqrt (1 - -d * -d) ≤ Real.sqrt 1 :=
          Real.sqrt_le_sqrt (by nlinarith [mul_self_nonneg d])
    _ = 1 := Real.sqrt_one
  have hcannot : ¬(1 * Real.sqrt (1 - -d * -d) > 1) := by
    rw [one_mul]
    exact not_lt.mpr hsin
  have hrefl : reflectance (-d) 1 = (1 + d)^5 := by
    unfold reflectance
    norm_num
  have hnotr : ¬(reflectance (-d) 1 > rnd) := by
    rw [hrefl]
    exact not_lt.mpr hr
  rw [if_neg (not_or.mpr ⟨hcannot, hnotr⟩)]
  exact refract_ratio_one _ _ huu hnn hcos hge

/-- Claim C3 counterexample: with `ior = 1`, an incident direction
`(3/5, 0, -4/5)` against normal `(0,0,1)` and a draw `1/10000` below the
Schlick reflectance `(1/5)^5 = 1/3125` takes the reflect branch: the
scattered direction `(3/5, 0, 4/5)` differs from the (already unit)
incident direction — the ray is bent, refuting "never bends for every
random draw". -/
theorem dielectric_ior_one_cex :
    (dielectricScatter 1 (1/10000) rayOblique recOblique).1.direction = ⟨3/5, 0, 4/5⟩ ∧
    rayOblique.direction.normalize = rayOblique.direction ∧
    ((⟨3/5, 0, 4/5⟩ : Vec3 ℝ) ≠ rayOblique.direction) := by
  have hlen : rayOblique.direction.length = 1 := by
    unfold rayOblique Vec3.length
    dsimp only
    rw [show (3 / 5 : ℝ) * (3 / 5) + 0 * 0 + -4 / 5 * (-4 / 5) = 1 by norm_num, Real.sqrt_one]
  have hnorm : rayOblique.direction.normalize = rayOblique.direction :=
    normalize_of_length_one hlen
  refine ⟨?_, hnorm, ?_⟩
  · unfold dielectricScatter
    dsimp only
    rw [hnorm]
    have hfront : recOblique.frontFace = true := rfl
    rw [hfront]
    have hmd : ((rayOblique.direction.mul (-1)).dot recOblique.normal) = 4/5 := by
      unfold rayOblique recOblique Vec3.mul Vec3.dot
      norm_num
    rw [if_pos rfl, hmd, min_eq_left (by norm_num : (4 / 5 : ℝ) ≤ 1)]
    have hsin : Real.sqrt (1 - 4/5 * (4/5)) ≤ 1 := by
      calc Real.sqrt (1 - 4/5 * (4/5)) ≤ Real.sqrt 1 := Real.sqrt_le_sqrt (by norm_num)
      _ = 1 := Real.sqrt_one
    have hrefl : reflectance (4/5 : ℝ) (1/1) = 1/3125 := by
      unfold reflectance
      norm_num
    rw [if_pos (Or.inr (by rw [hrefl]; norm_num))]
    unfold rayOblique recOblique Vec3.reflect Vec3.sub Vec3.mul Vec3.dot
    simp only [Vec3.mk.injEq]
    norm_num
  · intro h
    have := congrArg Vec3.z h
    unfold rayOblique at this
    norm_num at this

/-- Claim C3 amended-theorem witness: normal incidence, draw `1`; the
refraction branch is taken and the scattered direction equals the
normalized incident direction. -/
theorem dielectric_ior_one_refraction_witness :
    rayAxial.direction ≠ Vec3.zero ∧
    recAxial.normal.length = 1 ∧
    (rayAxial.direction.normalize).dot recAxial.normal ≤ 0 ∧
    (-1 : ℝ) ≤ (rayAxial.direction.normalize).dot recAxial.normal ∧
    (1 + (rayAxial.direction.normalize).dot recAxial.normal)^5 ≤ 1 ∧
    (dielectricScatter 1 1 rayAxial recAxial).1.direction = rayAxial.direction.normalize := by
  have hlen : rayAxial.direction.length = 1 := by
    unfold rayAxial Vec3.length
    dsimp only
    rw [show (0 : ℝ) * 0 + 0 * 0 + -1 * -1 = 1 by norm_num, Real.sqrt_one]
  have hnorm : rayAxial.direction.normalize = rayAxial.direction :=
    normalize_of_length_one hlen
  have hdot : (rayAxial.direction.normalize).dot recAxial.normal = -1 := by
    rw [hnorm]
    unfold rayAxial recAxial Vec3.dot
    norm_num
  have hd : rayAxial.direction ≠ Vec3.zero := by
    intro h
    have := congrArg Vec3.z h
    unfold rayAxial Vec3.zero at this
    norm_num at this
  have hn : recAxial.normal.length = 1 := by
    unfold recAxial Vec3.length
    dsimp only
    rw [show (0 : ℝ) * 0 + 0 * 0 + 1 * 1 = 1 by norm_num, Real.sqrt_one]
  refine ⟨hd, hn, by rw [hdot]; norm_num, by rw [hdot], by rw [hdot]; norm_num, ?_⟩
  exact dielectric_ior_one_refraction 1 rayAxial recAxial hd hn
    (by rw [hdot]; norm_num) (by rw [hdot]) (by rw [hdot]; norm_num)

theorem length_mul_neg_one (v : Vec3 ℝ) : (v.mul (-1)).length = v.length := by
  simp only [Vec3.length, Vec3.mul]
  rw [show v.x * -1 * (v.x * -1) + v.y * -1 * (v.y * -1) + v.z * -1 * (v.z * -1) =
    v.x * v.x + v.y * v.y + v.z * v.z by ring]

theorem zero_length : (Vec3.zero : Vec3 ℝ).length = 0 := by
  simp only [Vec3.length, Vec3.zero]
  rw [show (0 : ℝ) * 0 + 0 * 0 + 0 * 0 = 0 by ring, Real.sqrt_zero]

theorem goodRec_of_setFace (ray : Ray ℝ) (outward : Vec3 ℝ) (h : outward.length = 1)
    (t u v : ℝ) (p : Vec3 ℝ) :
    goodRec ray ⟨t, p, (setFaceNormal ray outward).2, (setFaceNormal ray outward).1, u, v⟩ := by
  unfold goodRec setFaceNormal
  dsimp only
  split_ifs with hc
  · exact ⟨h, fun _ => hc⟩
  · refine ⟨(length_mul_neg_one outward).trans h, ?_⟩
    intro hff
    simp at hff

theorem sphere_on_sphere (a hb c sd t : ℝ) (ha : a ≠ 0) (hsd : sd * sd = hb * hb - a * c)
    (ht : t = (-hb - sd) / a ∨ t = (-hb + sd) / a) :
    a * (t * t) + 2 * hb * t + c = 0 := by
  rcases ht with rfl | rfl
  · field_simp
    linear_combination (a * a) * hsd
  · field_simp
    linear_combination (a * a) * hsd

theorem sphere_point_dist (s : SphereR) (ray : Ray ℝ) (t : ℝ)
    (hq : ray.direction.dot ray.direction * (t * t) +
      2 * ((ray.origin.sub s.center).dot ray.direction) * t +
      ((ray.origin.sub s.center).dot (ray.origin.sub s.center) - s.radius * s.radius) = 0) :
    ((ray.at t).sub s.center).dot ((ray.at t).sub s.center) = s.radius * s.radius := by
  unfold Ray.at Vec3.add Vec3.mul Vec3.sub Vec3.dot at *
  linear_combination hq

theorem div_radius_unit (w : Vec3 ℝ) (rad : ℝ) (hrad : rad ≠ 0)
    (hw : w.dot w = rad * rad) : (w.div rad).length = 1 := by
  unfold Vec3.length Vec3.div
  have harg : w.x / rad * (w.x / rad) + w.y / rad * (w.y / rad) + w.z / rad * (w.z / rad) = 1 := by
    unfold Vec3.dot at hw
    field_simp
    linarith [hw]
  rw [harg, Real.sqrt_one]

theorem sphere_hit_good (s : SphereR) (ray : Ray ℝ) (tMin tMax : ℝ) (r : HitRecord ℝ)
    (hd : ray.direction.dot ray.direction ≠ 0) (hrad : s.radius ≠ 0)
    (h : SphereR.hit s ray tMin tMax = some r) : goodRec ray r := by
  unfold SphereR.hit at h
  dsimp only at h
  split_ifs at h with hdisc hsel hr1
  all_goals
    replace h := Option.some.inj h
  all_goals
    subst h
  all_goals
    apply goodRec_of_setFace
  all_goals
    apply div_radius_unit _ _ hrad
  all_goals
    apply sphere_point_dist
  all_goals
    apply sphere_on_sphere _ _ _ _ _ hd (Real.mul_self_sqrt (not_lt.mp hdisc))
  all_goals
    first
      | (left; rfl)
      | (right; rfl)

theorem normalize_zero : (Vec3.zero : Vec3 ℝ).normalize = Vec3.zero := by
  unfold Vec3.normalize
  rw [zero_length, if_neg (lt_irrefl 0)]

theorem dot_zero_left (v : Vec3 ℝ) : (Vec3.zero : Vec3 ℝ).dot v = 0 := by
  unfold Vec3.dot Vec3.zero
  ring

theorem plane_hit_good (p0 n0 : Vec3 ℝ) (ray : Ray ℝ) (tMin tMax : ℝ) (r : HitRecord ℝ)
    (h : (mkPlane p0 n0).hit ray tMin tMax = some r) : goodRec ray r := by
  unfold PlaneG.hit at h
  dsimp only at h
  split_ifs at h with habs hrange
  replace h := Option.some.inj h
  subst h
  apply goodRec_of_setFace
  have hdenom : (mkPlane p0 n0).normal.dot ray.direction ≠ 0 := by
    intro h0
    apply habs
    rw [h0]
    norm_num
  have hn0 : n0 ≠ Vec3.zero := by
    intro h0
    apply hdenom
    show (n0.normalize).dot ray.direction = 0
    rw [h0, normalize_zero, dot_zero_left]
  exact normalize_unit hn0

theorem boxNormal_unit (b : BoxG ℝ) (p : Vec3 ℝ) : (boxNormal b p).length = 1 := by
  unfold boxNormal
  split_ifs <;> (simp only [Vec3.length]; norm_num [Real.sqrt_one])

theorem box_hit_good (b : BoxG ℝ) (ray : Ray ℝ) (tMin tMax : ℝ) (r : HitRecord ℝ)
    (h : b.hit ray tMin tMax = some r) : goodRec ray r := by
  unfold BoxG.hit at h
  dsimp only at h
  split_ifs at h
  all_goals
    replace h := Option.some.inj h
  all_goals
    subst h
  all_goals
    exact goodRec_of_setFace ray _ (boxNormal_unit b _) _ _ _ _

theorem triple_shift (e1 d e2 : Vec3 ℝ) : e1.dot (d.cross e2) = -(d.dot (e1.cross e2)) := by
  unfold Vec3.dot Vec3.cross
  ring

theorem triangle_hit_good (v0 v1 v2 : Vec3 ℝ) (ray : Ray ℝ) (tMin tMax : ℝ) (r : HitRecord ℝ)
    (h : (mkTriangle v0 v1 v2).hit ray tMin tMax = some r) : goodRec ray r := by
  unfold TriangleG.hit at h
  dsimp only at h
  split_ifs at h with ha hu hv ht
  replace h := Option.some.inj h
  subst h
  apply goodRec_of_setFace
  have hanz : ((mkTriangle v0 v1 v2).v1.sub (mkTriangle v0 v1 v2).v0).dot
      (ray.direction.cross ((mkTriangle v0 v1 v2).v2.sub (mkTriangle v0 v1 v2).v0)) ≠ 0 := by
    intro h0
    apply ha
    rw [h0]
    norm_num
  have hcross : (v1.sub v0).cross (v2.sub v0) ≠ Vec3.zero := by
    intro h0
    apply hanz
    show (v1.sub v0).dot (ray.direction.cross (v2.sub v0)) = 0
    rw [triple_shift, h0]
    rw [show ray.direction.dot Vec3.zero = 0 by unfold Vec3.dot Vec3.zero; ring]
    ring
  exact normalize_unit hcross

theorem meshHitLoop_cons_some (ray : Ray ℝ) (tMin : ℝ) (tr : TriangleG ℝ)
    (rest : List (TriangleG ℝ)) (acc : Option (HitRecord ℝ)) (ct : ℝ) (hrec : HitRecord ℝ)
    (hh : tr.hit ray tMin ct = some hrec) :
    meshHitLoop ray tMin (tr :: rest) acc ct = meshHitLoop ray tMin rest (some hrec) hrec.t := by
  rw [meshHitLoop, hh]

theorem meshHitLoop_cons_none (ray : Ray ℝ) (tMin : ℝ) (tr : TriangleG ℝ)
    (rest : List (TriangleG ℝ)) (acc : Option (HitRecord ℝ)) (ct : ℝ)
    (hh : tr.hit ray tMin ct = none) :
    meshHitLoop ray tMin (tr :: rest) acc ct = meshHitLoop ray tMin rest acc ct := by
  rw [meshHitLoop, hh]

theorem meshHitLoop_good (ray : Ray ℝ) (tMin : ℝ) :
    ∀ (trs : List (TriangleG ℝ)), (∀ tr ∈ trs, ∃ a b c, tr = mkTriangle a b c) →
    ∀ (acc : Option (HitRecord ℝ)) (ct : ℝ),
      (∀ rr, acc = some rr → goodRec ray rr) →
      ∀ r, meshHitLoop ray tMin trs acc ct = some r → goodRec ray r := by
  intro trs
  induction trs with
  | nil =>
    intro _ acc ct hacc r h
    exact hacc r h
  | cons tr rest ih =>
    intro hmk acc ct hacc r h
    have hmk' : ∀ tr' ∈ rest, ∃ a b c, tr' = mkTriangle a b c :=
      fun tr' h' => hmk tr' (List.mem_cons_of_mem _ h')
    cases hh : tr.hit ray tMin ct with
    | some hrec =>
      rw [meshHitLoop_cons_some ray tMin tr rest acc ct hrec hh] at h
      refine ih hmk' (some hrec) hrec.t ?_ r h
      intro rr hrr
      obtain rfl := Option.some.inj hrr
      obtain ⟨a, b, c, rfl⟩ := hmk tr (List.mem_cons_self tr rest)
      exact triangle_hit_good a b c ray tMin ct _ hh
    | none =>
      rw [meshHitLoop_cons_none ray tMin tr rest acc ct hh] at h
      exact ih hmk' acc ct hacc r h

/-! ### Claim C8 -/

/-- Claim C8 (amended): every `HitRecord` returned by the primitives'
`hit` has a unit normal oriented so that `dot(ray.direction, normal) < 0`
whenever `frontFace` is true — unconditionally for Plane, Box, Triangle
and TriangleMesh, and for Sphere provided the ray direction is nonzero
and the radius is nonzero (`Sphere.hit` divides by both; the
counterexample shows a radius-0 sphere returning a non-unit normal). -/
theorem hit_records_unit_and_oriented :
    (∀ (s : SphereR) (ray : Ray ℝ) (tMin tMax : ℝ) (r : HitRecord ℝ),
      ray.direction.dot ray.direction ≠ 0 → s.radius ≠ 0 →
      SphereR.hit s ray tMin tMax = some r → goodRec ray r) ∧
    (∀ (p0 n0 : Vec3 ℝ) (ray : Ray ℝ) (tMin tMax : ℝ) (r : HitRecord ℝ),
      (mkPlane p0 n0).hit ray tMin tMax = some r → goodRec ray r) ∧
    (∀ (b : BoxG ℝ) (ray : Ray ℝ) (tMin tMax : ℝ) (r : HitRecord ℝ),
      b.hit ray tMin tMax = some r → goodRec ray r) ∧
    (∀ (v0 v1 v2 : Vec3 ℝ) (ray : Ray ℝ) (tMin tMax : ℝ) (r : HitRecord ℝ),
      (mkTriangle v0 v1 v2).hit ray tMin tMax = some r → goodRec ray r) ∧
    (∀ (trs : List (TriangleG ℝ)), (∀ tr ∈ trs, ∃ a b c, tr = mkTriangle a b c) →
      ∀ (ray : Ray ℝ) (tMin tMax : ℝ) (r : HitRecord ℝ),
        meshHit trs ray tMin tMax = some r → goodRec ray r) := by
  refine ⟨?_, ?_, ?_, ?_, ?_⟩
  · intro s ray tMin tMax r hd hrad h
    exact sphere_hit_good s ray tMin tMax r hd hrad h
  · intro p0 n0 ray tMin tMax r h
    exact plane_hit_good p0 n0 ray tMin tMax r h
  · intro b ray tMin tMax r h
    exact box_hit_good b ray tMin tMax r h
  · intro v0 v1 v2 ray tMin tMax r h
    exact triangle_hit_good v0 v1 v2 ray tMin tMax r h
  · intro trs hmk ray tMin tMax r h
    exact meshHitLoop_good ray tMin trs hmk none tMax (fun rr hrr => Option.noConfusion hrr) r h

/-- Claim C8 counterexample: a sphere of radius 0 probed through its
centre returns a record (the discriminant is 0 and `t = 2` is accepted)
whose normal `(point - center)/radius` is the zero vector — not unit
length.  (In the JavaScript source the same division by zero yields a
NaN normal, which is equally not unit length; the Lean embedding follows
the `x / 0 = 0` convention.) -/
theorem sphere_degenerate_cex :
    ((SphereR.hit ⟨Vec3.zero, 0⟩ ⟨⟨0, 0, 2⟩, ⟨0, 0, -1⟩⟩ 0 10).getD defRecR).normal =
      Vec3.zero ∧
    (SphereR.hit ⟨Vec3.zero, 0⟩ ⟨⟨0, 0, 2⟩, ⟨0, 0, -1⟩⟩ 0 10).isSome = true ∧
    (Vec3.zero : Vec3 ℝ).length ≠ 1 := by
  have hoc : (⟨0, 0, 2⟩ : Vec3 ℝ).sub Vec3.zero = ⟨0, 0, 2⟩ := by
    simp [Vec3.sub, Vec3.zero]
  have ha : (⟨0, 0, -1⟩ : Vec3 ℝ).dot ⟨0, 0, -1⟩ = 1 := by
    simp [Vec3.dot]
  have hhb : (⟨0, 0, 2⟩ : Vec3 ℝ).dot ⟨0, 0, -1⟩ = -2 := by
    simp [Vec3.dot]
  have hcc : (⟨0, 0, 2⟩ : Vec3 ℝ).dot ⟨0, 0, 2⟩ = 4 := by
    simp [Vec3.dot]
    norm_num
  have heval : SphereR.hit ⟨Vec3.zero, 0⟩ ⟨⟨0, 0, 2⟩, ⟨0, 0, -1⟩⟩ 0 10 =
      some ⟨2, ⟨0, 0, 0⟩, Vec3.zero, false,
        (jsAtan2 (-(0 : ℝ)) 0 + Real.pi) / (2 * Real.pi), Real.arccos (-(0 : ℝ)) / Real.pi⟩ := by
    unfold SphereR.hit
    dsimp only
    rw [hoc, ha, hhb, hcc]
    rw [show (-2 : ℝ) * -2 - 1 * (4 - 0 * 0) = 0 by norm_num]
    rw [if_neg (lt_irrefl 0), Real.sqrt_zero]
    rw [show (- (-2 : ℝ) - 0) / 1 = 2 by norm_num]
    rw [if_neg (by norm_num : ¬((2 : ℝ) < 0 ∨ (10 : ℝ) < 2))]
    rw [if_neg (by norm_num : ¬((2 : ℝ) < 0 ∨ (10 : ℝ) < 2))]
    have hpoint : (⟨⟨0, 0, 2⟩, ⟨0, 0, -1⟩⟩ : Ray ℝ).at 2 = ⟨0, 0, 0⟩ := by
      simp only [Ray.at, Vec3.add, Vec3.mul, Vec3.mk.injEq]
      norm_num
    rw [hpoint]
    have hnrm : ((⟨0, 0, 0⟩ : Vec3 ℝ).sub Vec3.zero).div 0 = ⟨0, 0, 0⟩ := by
      simp only [Vec3.sub, Vec3.zero, Vec3.div, Vec3.mk.injEq]
      norm_num
    rw [hnrm]
    have hface : setFaceNormal (⟨⟨0, 0, 2⟩, ⟨0, 0, -1⟩⟩ : Ray ℝ) ⟨0, 0, 0⟩ =
        (false, ⟨0, 0, 0⟩) := by
      unfold setFaceNormal
      rw [if_neg (by simp [Vec3.dot])]
      simp [Vec3.mul]
    rw [hface]
    rfl
  refine ⟨?_, ?_, ?_⟩
  · rw [heval]
    rfl
  · rw [heval]
    rfl
  · rw [zero_length]
    norm_num

/-- Claim C8 witness: a concrete plane hit, with the record's unit
normal oriented against the ray. -/
theorem hit_records_unit_and_oriented_witness :
    ((mkPlane ⟨0, 0, 0⟩ ⟨0, 0, 1⟩).hit (⟨⟨0, 0, 2⟩, ⟨0, 0, -1⟩⟩ : Ray ℝ) 0 10).isSome = true ∧
    goodRec (⟨⟨0, 0, 2⟩, ⟨0, 0, -1⟩⟩ : Ray ℝ)
      (((mkPlane ⟨0, 0, 0⟩ ⟨0, 0, 1⟩).hit (⟨⟨0, 0, 2⟩, ⟨0, 0, -1⟩⟩ : Ray ℝ) 0 10).getD defRecR) := by
  have hn1 : (⟨0, 0, 1⟩ : Vec3 ℝ).length = 1 := by
    simp only [Vec3.length]
    norm_num [Real.sqrt_one]
  have hnorm : (mkPlane ⟨0, 0, 0⟩ (⟨0, 0, 1⟩ : Vec3 ℝ)).normal = ⟨0, 0, 1⟩ := by
    show (⟨0, 0, 1⟩ : Vec3 ℝ).normalize = ⟨0, 0, 1⟩
    exact normalize_of_length_one hn1
  have heval : (mkPlane ⟨0, 0, 0⟩ ⟨0, 0, 1⟩).hit (⟨⟨0, 0, 2⟩, ⟨0, 0, -1⟩⟩ : Ray ℝ) 0 10 =
      some ⟨2, (⟨⟨0, 0, 2⟩, ⟨0, 0, -1⟩⟩ : Ray ℝ).at 2,
        (setFaceNormal (⟨⟨0, 0, 2⟩, ⟨0, 0, -1⟩⟩ : Ray ℝ) (mkPlane ⟨0, 0, 0⟩ ⟨0, 0, 1⟩).normal).2,
        (setFaceNormal (⟨⟨0, 0, 2⟩, ⟨0, 0, -1⟩⟩ : Ray ℝ) (mkPlane ⟨0, 0, 0⟩ ⟨0, 0, 1⟩).normal).1,
        (((⟨⟨0, 0, 2⟩, ⟨0, 0, -1⟩⟩ : Ray ℝ).at 2).x + 10) / 20,
        (((⟨⟨0, 0, 2⟩, ⟨0, 0, -1⟩⟩ : Ray ℝ).at 2).z + 10) / 20⟩ := by
    unfold PlaneG.hit
    dsimp only
    rw [hnorm]
    have hdenom : (⟨0, 0, 1⟩ : Vec3 ℝ).dot ⟨0, 0, -1⟩ = -1 := by
      simp [Vec3.dot]
    rw [hdenom]
    rw [if_neg (by norm_num : ¬|(-1 : ℝ)| < 1 / 1000000)]
    have hpt : (mkPlane (⟨0, 0, 0⟩ : Vec3 ℝ) ⟨0, 0, 1⟩).point = ⟨0, 0, 0⟩ := rfl
    rw [hpt]
    have ht : ((⟨0, 0, 0⟩ : Vec3 ℝ).sub ⟨0, 0, 2⟩).dot ⟨0, 0, 1⟩ / (-1) = 2 := by
      simp [Vec3.sub, Vec3.dot]
    rw [ht]
    rw [if_neg (by norm_num : ¬((2 : ℝ) < 0 ∨ (2 : ℝ) > 10))]
  refine ⟨by rw [heval]; rfl, ?_⟩
  have hgood := (hit_records_unit_and_oriented).2.1 ⟨0, 0, 0⟩ ⟨0, 0, 1⟩
    (⟨⟨0, 0, 2⟩, ⟨0, 0, -1⟩⟩ : Ray ℝ) 0 10 _ heval
  rw [heval]
  exact hgood

theorem setFaceNormal_length (ray : Ray ℝ) (outward : Vec3 ℝ) :
    (setFaceNormal ray outward).2.length = outward.length := by
  unfold setFaceNormal
  split_ifs
  · rfl
  · exact length_mul_neg_one outward

theorem boxNormal_mem (b : BoxG ℝ) (p : Vec3 ℝ) :
    boxNormal b p = ⟨1, 0, 0⟩ ∨ boxNormal b p = ⟨-1, 0, 0⟩ ∨ boxNormal b p = ⟨0, 1, 0⟩ ∨
    boxNormal b p = ⟨0, -1, 0⟩ ∨ boxNormal b p = ⟨0, 0, 1⟩ ∨ boxNormal b p = ⟨0, 0, -1⟩ := by
  unfold boxNormal
  split_ifs
  · right; left; rfl
  · left; rfl
  · right; right; right; left; rfl
  · right; right; left; rfl
  · right; right; right; right; right; rfl
  · right; right; right; right; left; rfl

theorem setFace_mem (ray : Ray ℝ) (v : Vec3 ℝ)
    (hv : v = ⟨1, 0, 0⟩ ∨ v = ⟨-1, 0, 0⟩ ∨ v = ⟨0, 1, 0⟩ ∨ v = ⟨0, -1, 0⟩ ∨
      v = ⟨0, 0, 1⟩ ∨ v = ⟨0, 0, -1⟩) :
    (setFaceNormal ray v).2 = ⟨1, 0, 0⟩ ∨ (setFaceNormal ray v).2 = ⟨-1, 0, 0⟩ ∨
    (setFaceNormal ray v).2 = ⟨0, 1, 0⟩ ∨ (setFaceNormal ray v).2 = ⟨0, -1, 0⟩ ∨
    (setFaceNormal ray v).2 = ⟨0, 0, 1⟩ ∨ (setFaceNormal ray v).2 = ⟨0, 0, -1⟩ := by
  unfold setFaceNormal
  split_ifs
  · exact hv
  · dsimp only
    rcases hv with rfl | rfl | rfl | rfl | rfl | rfl <;> simp [Vec3.mul, Vec3.mk.injEq]

theorem box_hit_normal_cases (b : BoxG ℝ) (ray : Ray ℝ) (tMin tMax : ℝ) (r : HitRecord ℝ)
    (h : b.hit ray tMin tMax = some r) :
    ∃ p, r.normal = (setFaceNormal ray (boxNormal b p)).2 := by
  unfold BoxG.hit at h
  dsimp only at h
  split_ifs at h
  all_goals
    replace h := Option.some.inj h
  all_goals
    subst h
  all_goals
    exact ⟨_, rfl⟩

/-! ### Claim C4 -/

/-- Claim C4 (amended): every record accepted by `Box.hit` carries a unit
normal aligned to exactly one world axis (one of the six `±` axis unit
vectors, possibly flipped against the ray by `setFaceNormal`).  The
normal is chosen by epsilon-comparing the hit point against the six face
planes in the fixed order `-x, +x, -y, +y, -z` with `+z` as fallback, so
it need NOT be the outward normal of the face whose slab boundary
produced the returned `t`: within `1e-6` of an edge, an earlier axis in
the comparison order wins (see the counterexample). -/
theorem box_normal_axis_aligned (b : BoxG ℝ) (ray : Ray ℝ) (tMin tMax : ℝ)
    (r : HitRecord ℝ) (h : b.hit ray tMin tMax = some r) :
    (r.normal = ⟨1, 0, 0⟩ ∨ r.normal = ⟨-1, 0, 0⟩ ∨ r.normal = ⟨0, 1, 0⟩ ∨
      r.normal = ⟨0, -1, 0⟩ ∨ r.normal = ⟨0, 0, 1⟩ ∨ r.normal = ⟨0, 0, -1⟩) ∧
    r.normal.length = 1 := by
  obtain ⟨p, hp⟩ := box_hit_normal_cases b ray tMin tMax r h
  rw [hp]
  exact ⟨setFace_mem ray _ (boxNormal_mem b p),
    (setFaceNormal_length ray _).trans (boxNormal_unit b p)⟩

/-- Claim C4 counterexample: the ray `rayEdge` enters the unit box
through the top face (`t = 1` comes from the `y` slab: the hit point
lies exactly on `y = max.y` and on neither `x` face plane), but the hit
point's `x` is within `1e-6` of the `min.x` face plane, so the epsilon
chain returns the `-x` normal instead of the producing top face's `+y`
normal. -/
theorem box_edge_normal_cex :
    BoxG.hit boxR rayEdge (1/1000) 1000 = some recEdge ∧
    recEdge.point.y = boxR.max.y ∧
    recEdge.point.x ≠ boxR.min.x ∧
    recEdge.point.x ≠ boxR.max.x ∧
    recEdge.normal ≠ ⟨0, 1, 0⟩ := by
  refine ⟨?_, by norm_num [recEdge, boxR], by norm_num [recEdge, boxR],
    by norm_num [recEdge, boxR], ?_⟩
  · unfold BoxG.hit boxR rayEdge recEdge
    dsimp only
    norm_num [Ray.at, Vec3.add, Vec3.mul, Vec3.dot, boxNormal, setFaceNormal,
      Vec3.mk.injEq, max_def, min_def, abs_sub_comm]
    have e1 : |(1 : ℝ) / 2000000| < 1 / 1000000 := by
      rw [abs_of_pos (by norm_num : (0 : ℝ) < 1 / 2000000)]
      norm_num
    simp only [if_pos e1]
    norm_num
  · intro h
    have := congrArg Vec3.x h
    unfold recEdge at this
    norm_num at this

/-- Claim C4 witness: a diagonal ray into the unit box is accepted, and
its record's normal is axis-aligned and unit. -/
theorem box_normal_axis_aligned_witness :
    BoxG.hit boxR rayDiag (1/1000) 1000 = some recDiag ∧
    ((recDiag.normal = ⟨1, 0, 0⟩ ∨ recDiag.normal = ⟨-1, 0, 0⟩ ∨ recDiag.normal = ⟨0, 1, 0⟩ ∨
      recDiag.normal = ⟨0, -1, 0⟩ ∨ recDiag.normal = ⟨0, 0, 1⟩ ∨ recDiag.normal = ⟨0, 0, -1⟩) ∧
      recDiag.normal.length = 1) := by
  have heval : BoxG.hit boxR rayDiag (1/1000) 1000 = some recDiag := by
    unfold BoxG.hit boxR rayDiag recDiag
    dsimp only
    norm_num [Ray.at, Vec3.add, Vec3.mul, Vec3.dot, boxNormal, setFaceNormal,
      Vec3.mk.injEq, max_def, min_def]
  exact ⟨heval, box_normal_axis_aligned boxR rayDiag (1/1000) 1000 recDiag heval⟩

/-! ### Claim C5 -/

/-- Claim C5 is violated by the code (a bug relative to the spec's
error-handling requirement): under JavaScript number semantics, a ray
whose origin lies on the `max.x` face plane with a zero `x` direction
component makes the `x` slab compute `0/0 = NaN` and `-1/0 = -Infinity`;
the `NaN` survives `Math.min`, every comparison with it is false, and
`Box.hit` returns a HitRecord with `t = NaN` instead of no hit. -/
theorem jsBox_nan_escape :
    jsBoxHit jbox rayNaN (1/1000) 1000 ≠ none ∧
    ((jsBoxHit jbox rayNaN (1/1000) 1000).getD defRecJ).t = ERat.nan := by
  have heval : jsBoxHit jbox rayNaN (1/1000) 1000 =
      some ⟨ERat.nan, ⟨ERat.nan, ERat.nan, ERat.nan⟩, ⟨0, 0, -1⟩, false⟩ := by
    unfold jsBoxHit jbox rayNaN
    dsimp only
    norm_num [ediv, ERat.blt, ERat.jmax, ERat.jmin, ERat.qmul, ERat.qadd, ERat.qsub,
      ERat.eabs, jsRayAt, setFaceNormal, Vec3.dot, Vec3.mul, Vec3.mk.injEq]
  rw [heval]
  exact ⟨by simp, rfl⟩

/-! ### Claim C6 -/

/-- Claim C6: a sphere of radius `r > 0` centred at the origin, probed
from `(0,0,k)` with `k > r` along `(0,0,-1)` and `k - r` inside the
query range, is hit at `t = k - r`, point `(0,0,r)`, with front-face
outward normal `(0,0,1)`. -/
theorem sphere_axial_hit (r k tMin tMax : ℝ) (hr : 0 < r) (hk : r < k)
    (h1 : tMin ≤ k - r) (h2 : k - r ≤ tMax) :
    (SphereR.hit ⟨Vec3.zero, r⟩ ⟨⟨0, 0, k⟩, ⟨0, 0, -1⟩⟩ tMin tMax).map
      (fun h => (h.t, h.point, h.normal, h.frontFace)) =
    some (k - r, ⟨0, 0, r⟩, ⟨0, 0, 1⟩, true) := by
  have hoc : (⟨0, 0, k⟩ : Vec3 ℝ).sub Vec3.zero = ⟨0, 0, k⟩ := by
    simp [Vec3.sub, Vec3.zero]
  have ha : (⟨0, 0, -1⟩ : Vec3 ℝ).dot ⟨0, 0, -1⟩ = 1 := by
    simp [Vec3.dot]
  have hhb : (⟨0, 0, k⟩ : Vec3 ℝ).dot ⟨0, 0, -1⟩ = -k := by
    simp [Vec3.dot]
  have hcc : (⟨0, 0, k⟩ : Vec3 ℝ).dot ⟨0, 0, k⟩ = k * k := by
    simp [Vec3.dot]
  unfold SphereR.hit
  dsimp only
  rw [hoc, ha, hhb, hcc]
  rw [show -k * -k - 1 * (k * k - r * r) = r * r by ring]
  rw [if_neg (not_lt.mpr (mul_self_nonneg r))]
  rw [Real.sqrt_mul_self hr.le]
  rw [show (- -k - r) / 1 = k - r by ring]
  rw [if_neg (not_or.mpr ⟨not_lt.mpr h1, not_lt.mpr h2⟩)]
  rw [if_neg (not_or.mpr ⟨not_lt.mpr h1, not_lt.mpr h2⟩)]
  have hpoint : (⟨⟨0, 0, k⟩, ⟨0, 0, -1⟩⟩ : Ray ℝ).at (k - r) = ⟨0, 0, r⟩ := by
    simp only [Ray.at, Vec3.add, Vec3.mul, Vec3.mk.injEq]
    refine ⟨by ring, by ring, by ring⟩
  rw [hpoint]
  have hnrm : ((⟨0, 0, r⟩ : Vec3 ℝ).sub Vec3.zero).div r = ⟨0, 0, 1⟩ := by
    simp only [Vec3.sub, Vec3.zero, Vec3.div, Vec3.mk.injEq]
    refine ⟨by ring, by ring, ?_⟩
    rw [sub_zero]
    exact div_self hr.ne'
  rw [hnrm]
  have hface : setFaceNormal (⟨⟨0, 0, k⟩, ⟨0, 0, -1⟩⟩ : Ray ℝ) ⟨0, 0, 1⟩ =
      (true, ⟨0, 0, 1⟩) := by
    unfold setFaceNormal
    rw [if_pos (by simp [Vec3.dot])]
  rw [hface]
  rfl

/-- Claim C6 witness: unit sphere probed from `(0,0,3)` inside the range
`[0, 10]`. -/
theorem sphere_axial_hit_witness :
    (0 : ℝ) < 1 ∧ (1 : ℝ) < 3 ∧ (0 : ℝ) ≤ 3 - 1 ∧ (3 - 1 : ℝ) ≤ 10 ∧
    (SphereR.hit ⟨Vec3.zero, 1⟩ ⟨⟨0, 0, 3⟩, ⟨0, 0, -1⟩⟩ 0 10).map
      (fun h => (h.t, h.point, h.normal, h.frontFace)) =
    some (3 - 1, ⟨0, 0, 1⟩, ⟨0, 0, 1⟩, true) :=
  ⟨by norm_num, by norm_num, by norm_num, by norm_num,
    sphere_axial_hit 1 3 0 10 (by norm_num) (by norm_num) (by norm_num) (by norm_num)⟩

/-- Claim C7 witness: zero-roughness metal at normal incidence accepts
the scatter, and the returned direction is the reflected one. -/
theorem metal_scatter_rejection_witness :
    ((⟨recAxial.point, metalDir (mkMetal ⟨1, 1, 1⟩ 0) ⟨9, 9, 9⟩ rayAxial recAxial.normal⟩ :
        Ray ℝ), (⟨1, 1, 1⟩ : Vec3 ℝ)).1.direction.dot recAxial.normal > 0 := by
  have hdot : (metalDir (mkMetal ⟨1, 1, 1⟩ 0) ⟨9, 9, 9⟩ rayAxial recAxial.normal).dot
      recAxial.normal > 0 := by
    norm_num [metalDir, mkMetal, Vec3.normalize, Vec3.length, Vec3.div, Vec3.reflect,
      Vec3.sub, Vec3.mul, Vec3.add, Vec3.dot, Vec3.zero, rayAxial, recAxial,
      Real.sqrt_one]
  have hsome : MetalR.scatter (mkMetal ⟨1, 1, 1⟩ 0) ⟨9, 9, 9⟩ rayAxial recAxial =
      some (⟨recAxial.point,
        metalDir (mkMetal ⟨1, 1, 1⟩ 0) ⟨9, 9, 9⟩ rayAxial recAxial.normal⟩,
        (mkMetal ⟨1, 1, 1⟩ 0).albedo) := by
    unfold MetalR.scatter
    rw [if_pos hdot]
  exact ((metal_scatter_rejection (mkMetal ⟨1, 1, 1⟩ 0) ⟨9, 9, 9⟩ rayAxial recAxial).2 _
    hsome).1

end RT
